import Mathlib

/-!
# Process supervisor (`Util::Procs`, `src/lib/procs.cpp`)

A shallow embedding of the process supervisor: the two process-wide tables
(`plist`, `exitHandlers`), the launch functions, the termination functions, the
`SIGCHLD` handler and the command tokenizer of `runCmd`.

Modelling conventions.

* `std::map<pid_t, V>` is a list of `(key, value)` pairs kept in increasing key order;
  iteration order of the map is the order of the list.
* System calls are not executed.  What a system call returns is an argument of the
  embedded function (`fork` returns `f`, `pipe` returns `p`, ...), and every system call the
  function makes is appended to a trace of `Event`s, in program order.
* A call that does not return to its caller (the child side of a `fork`, which ends in
  `execvp` or `_exit(42)`) has `ret = none`.
* Every function is one atomic step: the `SIGCHLD` handler is a step of its own and does not
  run in the middle of another function.
* Diagnostics written to `std::cerr` are not modelled.
-/

namespace Util.Procs

/-! ## `std::map<pid_t, V>` -/

/-- Lookup, `std::map::find`: the value stored under key `k`, if there is one. -/
def mapFind {V : Type} (k : Int) : List (Int × V) → Option V
  | [] => none
  | (k', v) :: t => if k' = k then some v else mapFind k t

/-- Counting, `std::map::count`: `1` when the key is present, `0` otherwise. -/
def mapCount {V : Type} (k : Int) (m : List (Int × V)) : Nat :=
  if (mapFind k m).isSome then 1 else 0

/-- Places the pair `(k, v)` in front of the first entry with a larger key. -/
def insertSorted {V : Type} (k : Int) (v : V) : List (Int × V) → List (Int × V)
  | [] => [(k, v)]
  | (k', v') :: t =>
    if k < k' then (k, v) :: (k', v') :: t
    else (k', v') :: insertSorted k v t

/-- Insertion, `std::map::insert(std::pair(k, v))`: a map that already holds the key `k` is
left as it is; otherwise the pair is added at its place in key order. -/
def mapInsert {V : Type} (k : Int) (v : V) (m : List (Int × V)) : List (Int × V) :=
  if (mapFind k m).isSome then m else insertSorted k v m

/-- Assignment, `m[k] = v`: stores `v` under `k`, replacing the value of an existing entry. -/
def mapAssign {V : Type} (k : Int) (v : V) : List (Int × V) → List (Int × V)
  | [] => [(k, v)]
  | (k', v') :: t =>
    if k < k' then (k, v) :: (k', v') :: t
    else if k = k' then (k, v) :: t
    else (k', v') :: mapAssign k v t

/-- Removal, `std::map::erase(k)`. -/
def mapErase {V : Type} (k : Int) (m : List (Int × V)) : List (Int × V) :=
  m.filter (fun e => decide (e.1 ≠ k))

/-- Keys of a map are strictly increasing, as in every `std::map`. -/
def MapWF {V : Type} (m : List (Int × V)) : Prop :=
  (m.map Prod.fst).Pairwise (· < ·)

/-! ## State and trace -/

/-- A `TerminationNotifier` is a function pointer `void (*)(pid_t, int)`; it is represented by
its address, and `0` is the null pointer. -/
abbrev TerminationNotifier := Nat

/-- The static members of `Util::Procs`. -/
structure State where
  plist : List (Int × String)
  exitHandlers : List (Int × TerminationNotifier)
  handler_set : Bool
  deriving DecidableEq, Repr

/-- Outcome of `pipe(fds)`: `fail` is the return value `-1`; `ok r w` is the return value `0`
with `fds[0] = r` (read end) and `fds[1] = w` (write end). -/
inductive PipeRes where
  | fail
  | ok (r w : Int)
  deriving DecidableEq, Repr

/-- What `waitpid` stores in `status`, as seen through the macros `WIFEXITED`, `WEXITSTATUS`,
`WIFSIGNALED` and `WTERMSIG`. -/
inductive WaitStatus where
  | exited (code : Nat)
  | signaled (sig : Nat)
  | other
  deriving DecidableEq, Repr

/-- System calls and callback invocations made by the supervisor. -/
inductive Event where
  | sigaction
  | pipe (res : PipeRes)
  | openDevNull (fd : Int)
  | fork (ret : Int)
  | close (fd : Int)
  | dup2 (oldfd newfd : Int)
  | kill (pid : Int)
  | execvp (argv : Option (List (List Char)))
  | waitpid (ret : Int)
  | notify (tn : TerminationNotifier) (pid : Int) (exitcode : Int)
  deriving DecidableEq, Repr

/-- Result of a call: the state afterwards, the value returned (`none` when the call does not
return) and the system calls made. -/
structure Result where
  state : State
  ret : Option Int
  events : List Event
  deriving DecidableEq, Repr

/-- The value of the macro `SIGCHLD` (Linux). -/
def SIGCHLD : Int := 17

/-- The descriptor number of standard input. -/
def STDIN_FILENO : Int := 0

/-- The descriptor number of standard output. -/
def STDOUT_FILENO : Int := 1

/-- The descriptor number of standard error. -/
def STDERR_FILENO : Int := 2

/-! ## Registry queries -/

/-- Name lookup `isActive(std::string)`: some record carries this name. -/
def isActive (name : String) : List (Int × String) → Bool
  | [] => false
  | (_, n) :: t => if n = name then true else isActive name t

/-- Pid lookup `isActive(pid_t)`. -/
def isActivePid (pid : Int) (plist : List (Int × String)) : Bool :=
  decide (mapCount pid plist = 1)

/-- The pid of the first record, in key order, that carries this name; `0` when there is
none. -/
def getPid (name : String) : List (Int × String) → Int
  | [] => 0
  | (p, n) :: t => if n = name then p else getPid name t

/-- The name registered for a pid, the empty string when there is none. -/
def getName (pid : Int) (plist : List (Int × String)) : String :=
  if mapCount pid plist = 1 then (mapFind pid plist).getD "" else ""

/-- Number of records, `Count()`. -/
def Count (plist : List (Int × String)) : Nat := plist.length

/-! ## Termination control -/

/-- The overload `Stop(pid_t)`: sends `SIGTERM` when the pid is registered. -/
def StopPid (pid : Int) (plist : List (Int × String)) : List Event :=
  if isActivePid pid plist then [Event.kill pid] else []

/-- The loop of `Stop(std::string)`; `max` is the loop counter, which starts at `5`. -/
def StopLoop (name : String) (plist : List (Int × String)) : Nat → List Event
  | 0 => []
  | max + 1 =>
    if isActive name plist then
      StopPid (getPid name plist) plist ++ (if max ≤ 0 then [] else StopLoop name plist max)
    else []

/-- The overload `Stop(std::string)`. -/
def Stop (name : String) (plist : List (Int × String)) : List Event :=
  StopLoop name plist 5

/-- The loop of `StopAll()` over the records of the map. -/
def StopAll (plist : List (Int × String)) : List Event :=
  (plist.map (fun e => StopPid e.1 plist)).flatten

/-! ## Termination notifiers -/

/-- `SetTerminationNotifier(pid, notifier)`: the new state and the value returned. -/
def SetTerminationNotifier (s : State) (pid : Int) (notifier : TerminationNotifier) :
    State × Bool :=
  if (mapFind pid s.plist).isSome then
    ({ s with exitHandlers := mapAssign pid notifier s.exitHandlers }, true)
  else (s, false)

/-! ## The `SIGCHLD` handler -/

/-- The part of `childsig_handler` after the exit code is known.  `DEBUG` is the compile-time
diagnostics level; `plist[ret]` and `exitHandlers[ret]` create a default entry when the key is
missing, before the entry is erased. -/
def reapFinish (DEBUG : Nat) (s : State) (ret : Int) (exitcode : Int) : State × List Event :=
  let plist1 := if DEBUG ≥ 1 then mapInsert ret "" s.plist else s.plist
  let pname := (mapFind ret plist1).getD ""
  let plist2 := mapErase ret plist1
  let evStop := if DEBUG ≥ 1 then (if isActive pname plist2 then Stop pname plist2 else []) else []
  let handlers1 := mapInsert ret 0 s.exitHandlers
  let tn := (mapFind ret handlers1).getD 0
  let handlers2 := mapErase ret handlers1
  let evCall := if tn ≠ 0 then [Event.notify tn ret exitcode] else []
  ({ s with plist := plist2, exitHandlers := handlers2 }, evStop ++ evCall)

/-- The handler `childsig_handler(signum)`; `ret` and `status` are what
`waitpid(-1, &status, WNOHANG)` yields. -/
def childsig_handler (DEBUG : Nat) (s : State) (signum : Int) (ret : Int)
    (status : WaitStatus) : State × List Event :=
  if signum ≠ SIGCHLD then (s, [])
  else if ret = 0 then (s, [Event.waitpid ret])
  else if ret < 0 then (s, [Event.waitpid ret])
  else
    match status with
    | WaitStatus.exited code =>
      let r := reapFinish DEBUG s ret (code : Int)
      (r.1, Event.waitpid ret :: r.2)
    | WaitStatus.signaled sig =>
      let r := reapFinish DEBUG s ret (-(sig : Int))
      (r.1, Event.waitpid ret :: r.2)
    | WaitStatus.other => (s, [Event.waitpid ret])

/-! ## Command tokenizer and `runCmd` -/

/-- A `char *` pointing at a NUL-terminated string; `none` is the null pointer. -/
abbrev CharPtr := Option (List Char)

/-- The characters `cmd.c_str()` shows to the C string functions: those before the first
NUL. -/
def c_str (s : List Char) : List Char :=
  s.takeWhile (fun c => decide (c ≠ Char.ofNat 0))

/-- One call of `strtok(_, " ")` on the remaining input `s`: the token returned (`none` for
`NULL`) and the input left for the next call.  Leading spaces are skipped; the token runs up
to the next space, which is overwritten and stepped over. -/
def strtok (s : List Char) : CharPtr × List Char :=
  match s.dropWhile (fun c => decide (c = ' ')) with
  | [] => (none, [])
  | c :: cs =>
    (some ((c :: cs).takeWhile (fun c => decide (c ≠ ' '))),
      ((c :: cs).dropWhile (fun c => decide (c ≠ ' '))).tail)

/-- The loop `while (tmp2 != 0 && (i < 20))` of `runCmd`.  `rest` is the input `strtok` has
not consumed yet, `w` the writes `args[i] = p` made so far, in order.  The last argument
bounds the number of loop tests; `none` means the bound was too small. -/
def runCmdLoop (rest : List Char) (tmp2 : CharPtr) (i : Nat) (w : List (Nat × CharPtr)) :
    Nat → Option (Nat × List (Nat × CharPtr))
  | 0 => none
  | fuel + 1 =>
    if tmp2 ≠ none ∧ i < 20 then
      let r := strtok rest
      runCmdLoop r.2 r.1 (i + 1) (w ++ [(i + 1, r.1)]) fuel
    else some (i, w)

/-- The writes `args[i] = p` made by `runCmd(cmd)` before `execvp`, in program order. -/
def runCmdWrites (cmd : List Char) : Option (List (Nat × CharPtr)) :=
  let r := strtok (c_str cmd)
  match runCmdLoop r.2 r.1 0 [(0, r.1)] 21 with
  | none => none
  | some (i, w) => some (if i = 20 then w ++ [(20, none)] else w)

/-- The array `char * args[21]` before any write: every slot is uninitialised (`none`). -/
def argsInit : List (Option CharPtr) := List.replicate 21 none

/-- The array after the writes. -/
def applyWrites (w : List (Nat × CharPtr)) (args : List (Option CharPtr)) :
    List (Option CharPtr) :=
  w.foldl (fun a e => a.set e.1 (some e.2)) args

/-- The argument vector `execvp` reads from an array: the strings before the first null
pointer; `none` when an uninitialised slot or the end of the array comes first. -/
def argvOf : List (Option CharPtr) → Option (List (List Char))
  | [] => none
  | none :: _ => none
  | some none :: _ => some []
  | some (some t) :: rest => (argvOf rest).map (fun l => t :: l)

/-- The array `args` that `runCmd(cmd)` passes to `execvp`. -/
def runCmdArgs (cmd : List Char) : Option (List (Option CharPtr)) :=
  (runCmdWrites cmd).map (fun w => applyWrites w argsInit)

/-- The call `runCmd(cmd)`: it ends in `execvp(args[0], args)` or, when that fails,
`_exit(42)`, and never returns. -/
def runCmd (cmd : String) : List Event :=
  [Event.execvp ((runCmdArgs cmd.data).bind argvOf)]

/-- The tokens of a command string in the words of the specification: the string is split at
every space, and the non-empty pieces, which are the maximal runs of non-space characters, are
kept in order. -/
def specTokens (s : List Char) : List (List Char) :=
  (s.splitOnP (fun c => decide (c = ' '))).filter (fun t => decide (t ≠ []))

/-- The array `args` after `i` loop rounds over the tokens `toks`: the first `i` tokens, then
the pointer written last, then uninitialised slots. -/
def argsAfter (toks : List (List Char)) (i : Nat) : List (Option CharPtr) :=
  (toks.take i).map (fun t => some (some t)) ++ [some toks[i]?] ++ List.replicate (20 - i) none

/-! ## Launching -/

/-- The block `if (!handler_set){...}` that installs the `SIGCHLD` handler. -/
def installHandler (s : State) : State × List Event :=
  if !s.handler_set then ({ s with handler_set := true }, [Event.sigaction]) else (s, [])

/-- The parent records a started process: `plist.insert(std::pair(pid, name))`. -/
def register (s : State) (pid : Int) (name : String) : State :=
  { s with plist := mapInsert pid name s.plist }

/-- The overload `Start(name, cmd)`; `f` is what `fork()` returns. -/
def Start (s : State) (name cmd : String) (f : Int) : Result :=
  if isActive name s.plist then ⟨s, some (getPid name s.plist), []⟩
  else
    let h := installHandler s
    let ev := h.2 ++ [Event.fork f]
    if f = 0 then ⟨h.1, none, ev ++ runCmd cmd⟩
    else if f > 0 then ⟨register h.1 f name, some f, ev⟩
    else ⟨h.1, some 0, ev⟩

/-- The overload `Start(name, cmd, cmd2)`: `p` is what `pipe(pfildes)` yields, `devnull` what
`open("/dev/null", O_RDWR)` returns, `f1` and `f2` what the two `fork()` calls return. -/
def Start2 (s : State) (name cmd cmd2 : String) (p : PipeRes) (devnull : Int)
    (f1 f2 : Int) : Result :=
  if isActive name s.plist then ⟨s, some (getPid name s.plist), []⟩
  else
    let h := installHandler s
    match p with
    | PipeRes.fail => ⟨h.1, some 0, h.2 ++ [Event.pipe PipeRes.fail]⟩
    | PipeRes.ok r w =>
      let ev1 := h.2 ++ [Event.pipe (PipeRes.ok r w), Event.openDevNull devnull, Event.fork f1]
      if f1 = 0 then
        ⟨h.1, none, ev1 ++ [Event.close r, Event.dup2 w STDOUT_FILENO, Event.close w,
          Event.dup2 devnull STDIN_FILENO, Event.dup2 devnull STDERR_FILENO] ++ runCmd cmd⟩
      else if f1 > 0 then
        let s1 := register h.1 f1 name
        let ev2 := ev1 ++ [Event.fork f2]
        if f2 = 0 then
          ⟨s1, none, ev2 ++ [Event.close w, Event.dup2 r STDIN_FILENO, Event.close r,
            Event.dup2 devnull STDOUT_FILENO, Event.dup2 devnull STDERR_FILENO] ++ runCmd cmd2⟩
        else if f2 > 0 then
          ⟨register s1 f2 name, some f1, ev2 ++ [Event.close w, Event.close r]⟩
        else
          ⟨s1, some 0, ev2 ++ Stop name s1.plist ++ [Event.close w, Event.close r]⟩
      else ⟨h.1, some 0, ev1 ++ [Event.close w, Event.close r]⟩

/-- The overload `Start(name, cmd, cmd2, cmd3)`: `p` and `p2` are what `pipe(pfildes)` and
`pipe(pfildes2)` yield, `devnull` what `open` returns, `f1`, `f2`, `f3` what the three
`fork()` calls return. -/
def Start3 (s : State) (name cmd cmd2 cmd3 : String) (p p2 : PipeRes) (devnull : Int)
    (f1 f2 f3 : Int) : Result :=
  if isActive name s.plist then ⟨s, some (getPid name s.plist), []⟩
  else
    let h := installHandler s
    match p with
    | PipeRes.fail => ⟨h.1, some 0, h.2 ++ [Event.pipe PipeRes.fail]⟩
    | PipeRes.ok r w =>
      match p2 with
      | PipeRes.fail =>
        ⟨h.1, some 0, h.2 ++ [Event.pipe (PipeRes.ok r w), Event.pipe PipeRes.fail]⟩
      | PipeRes.ok r2 w2 =>
        let ev1 := h.2 ++ [Event.pipe (PipeRes.ok r w), Event.pipe (PipeRes.ok r2 w2),
          Event.openDevNull devnull, Event.fork f1]
        if f1 = 0 then
          ⟨h.1, none, ev1 ++ [Event.close r, Event.dup2 w STDOUT_FILENO, Event.close w,
            Event.dup2 devnull STDIN_FILENO, Event.dup2 devnull STDERR_FILENO,
            Event.close w2, Event.close r2] ++ runCmd cmd⟩
        else if f1 > 0 then
          let s1 := register h.1 f1 name
          let ev2 := ev1 ++ [Event.fork f2]
          if f2 = 0 then
            ⟨s1, none, ev2 ++ [Event.close w, Event.close r2, Event.dup2 r STDIN_FILENO,
              Event.close r, Event.dup2 w2 STDOUT_FILENO, Event.close w2,
              Event.dup2 devnull STDERR_FILENO] ++ runCmd cmd2⟩
          else if f2 > 0 then
            let s2 := register s1 f2 name
            let ev3 := ev2 ++ [Event.close w, Event.close r, Event.fork f3]
            if f3 = 0 then
              ⟨s2, none, ev3 ++ [Event.close w, Event.close r, Event.close w2,
                Event.dup2 r2 STDIN_FILENO, Event.close r2, Event.dup2 devnull STDOUT_FILENO,
                Event.dup2 devnull STDERR_FILENO] ++ runCmd cmd3⟩
            else if f3 > 0 then
              ⟨register s2 f3 name, some f3, ev3⟩
            else
              ⟨s2, some 0, ev3 ++ Stop name s2.plist ++
                [Event.close w, Event.close r, Event.close w2, Event.close r2]⟩
          else
            ⟨s1, some 0, ev2 ++ Stop name s1.plist ++
              [Event.close w, Event.close r, Event.close w2, Event.close r2]⟩
        else
          ⟨h.1, some 0, ev1 ++ [Event.close w, Event.close r, Event.close w2, Event.close r2]⟩

/-- Result of `StartPiped`: as `Result`, with the values of `*fdin`, `*fdout` and `*fderr`
when the call ends. -/
structure PipedResult where
  state : State
  ret : Option Int
  events : List Event
  fdin : Int
  fdout : Int
  fderr : Int
  deriving DecidableEq, Repr

/-- The test `*fd == -1 && pipe(arr) < 0` of `StartPiped`: `pipe` is called only when the
descriptor is `-1`.  The result is `none` when that call fails; otherwise it is the content of
`arr` when a pipe was created (`some (arr[0], arr[1])`) and `some none` when the caller
supplied the descriptor and `arr` stays unused. -/
def requestPipe (fd : Int) (p : PipeRes) : Option (Option (Int × Int)) :=
  if fd = -1 then
    match p with
    | PipeRes.fail => none
    | PipeRes.ok r w => some (some (r, w))
  else some none

/-- The `pipe` call made by the test `*fd == -1 && pipe(arr) < 0`, if any. -/
def pipeEvent (fd : Int) (p : PipeRes) : List Event :=
  if fd = -1 then [Event.pipe p] else []

/-- The statement `if (*fd == -1){close(arr[0]);close(arr[1]);}`, where `arr` was filled
exactly when `*fd == -1`. -/
def closeBoth : Option (Int × Int) → List Event
  | some (r, w) => [Event.close r, Event.close w]
  | none => []

/-- Child side of `StartPiped` for standard input: with a pipe, `close(pipein[1])` and
`dup2(pipein[0], STDIN_FILENO)`; otherwise `dup2(*fdin, STDIN_FILENO)`. -/
def childStdin (pipein : Option (Int × Int)) (fdin : Int) : List Event :=
  match pipein with
  | some (r, w) => [Event.close w, Event.dup2 r STDIN_FILENO]
  | none => [Event.dup2 fdin STDIN_FILENO]

/-- Child side of `StartPiped` for standard output and standard error (`target`): with a pipe,
`close(arr[0])` and `dup2(arr[1], target)`; otherwise `dup2(*fd, target)`. -/
def childOutput (arr : Option (Int × Int)) (fd target : Int) : List Event :=
  match arr with
  | some (r, w) => [Event.close r, Event.dup2 w target]
  | none => [Event.dup2 fd target]

/-- Parent side of `StartPiped` for standard input, `if (*fdin == -1){close(pipein[0]);
*fdin = pipein[1];}`: the calls made and the value of `*fdin` afterwards. -/
def parentStdin (pipein : Option (Int × Int)) (fdin : Int) : List Event × Int :=
  match pipein with
  | some (r, w) => ([Event.close r], w)
  | none => ([], fdin)

/-- Parent side of `StartPiped` for standard output and standard error,
`if (*fd == -1){close(arr[1]); *fd = arr[0];}`: the calls made and the value of `*fd`
afterwards. -/
def parentOutput (arr : Option (Int × Int)) (fd : Int) : List Event × Int :=
  match arr with
  | some (r, w) => ([Event.close w], r)
  | none => ([], fd)

/-- The function `StartPiped(name, argv, fdin, fdout, fderr)`: `pin`, `pout`, `perr` are what
the `pipe` calls yield when they are made, `f` is what `fork()` returns. -/
def StartPiped (s : State) (name : String) (argv : List String) (fdin fdout fderr : Int)
    (pin pout perr : PipeRes) (f : Int) : PipedResult :=
  if isActive name s.plist then ⟨s, some (getPid name s.plist), [], fdin, fdout, fderr⟩
  else
    let h := installHandler s
    let ev1 := h.2 ++ pipeEvent fdin pin
    match requestPipe fdin pin with
    | none => ⟨h.1, some 0, ev1, fdin, fdout, fderr⟩
    | some pipein =>
      let ev2 := ev1 ++ pipeEvent fdout pout
      match requestPipe fdout pout with
      | none => ⟨h.1, some 0, ev2 ++ closeBoth pipein, fdin, fdout, fderr⟩
      | some pipeout =>
        let ev3 := ev2 ++ pipeEvent fderr perr
        match requestPipe fderr perr with
        | none => ⟨h.1, some 0, ev3 ++ closeBoth pipein ++ closeBoth pipeout, fdin, fdout, fderr⟩
        | some pipeerr =>
          let ev4 := ev3 ++ [Event.fork f]
          if f = 0 then
            ⟨h.1, none, ev4 ++ childStdin pipein fdin ++ childOutput pipeout fdout STDOUT_FILENO ++
              childOutput pipeerr fderr STDERR_FILENO ++
              [Event.execvp (some (argv.map String.data))], fdin, fdout, fderr⟩
          else if f = -1 then
            ⟨h.1, some 0, ev4 ++ closeBoth pipein ++ closeBoth pipeout ++ closeBoth pipeerr,
              fdin, fdout, fderr⟩
          else
            ⟨register h.1 f name, some f, ev4 ++ (parentStdin pipein fdin).1 ++
              (parentOutput pipeout fdout).1 ++ (parentOutput pipeerr fderr).1,
              (parentStdin pipein fdin).2, (parentOutput pipeout fdout).2,
              (parentOutput pipeerr fderr).2⟩

/-! ## Observations on traces -/

/-- The values returned by the `fork()` calls of a trace, in order. -/
def forkRets : List Event → List Int
  | [] => []
  | Event.fork r :: t => r :: forkRets t
  | _ :: t => forkRets t

/-- The outcomes of the `pipe()` calls of a trace, in order. -/
def pipeCalls : List Event → List PipeRes
  | [] => []
  | Event.pipe p :: t => p :: pipeCalls t
  | _ :: t => pipeCalls t

/-- The pipe endpoints created in a trace: both descriptors of every successful `pipe()`. -/
def createdFds : List Event → List Int
  | [] => []
  | Event.pipe (PipeRes.ok r w) :: t => r :: w :: createdFds t
  | _ :: t => createdFds t

/-- How many times a trace closes the descriptor `fd`. -/
def closeCount (fd : Int) : List Event → Nat
  | [] => 0
  | Event.close fd' :: t => (if fd' = fd then 1 else 0) + closeCount fd t
  | _ :: t => closeCount fd t

/-- The pids to which a trace sends `SIGTERM`, in order. -/
def killed : List Event → List Int
  | [] => []
  | Event.kill p :: t => p :: killed t
  | _ :: t => killed t

/-- The notifier invocations of a trace, in order. -/
def notified : List Event → List (TerminationNotifier × Int × Int)
  | [] => []
  | Event.notify tn p c :: t => (tn, p, c) :: notified t
  | _ :: t => notified t

/-- The trace contains a failed `pipe()` or a failed `fork()` (a negative return value). -/
def hasFailure : List Event → Bool
  | [] => false
  | Event.pipe PipeRes.fail :: _ => true
  | Event.fork r :: t => if r < 0 then true else hasFailure t
  | _ :: t => hasFailure t

/-! ## Sequences of operations -/

/-- One operation on the supervisor, together with the values the system calls return to it.
The launch operations are the parent side of the call. -/
inductive Op where
  | start (name cmd : String) (f : Int)
  | start2 (name cmd cmd2 : String) (p : PipeRes) (devnull f1 f2 : Int)
  | start3 (name cmd cmd2 cmd3 : String) (p p2 : PipeRes) (devnull f1 f2 f3 : Int)
  | startPiped (name : String) (argv : List String) (fdin fdout fderr : Int)
      (pin pout perr : PipeRes) (f : Int)
  | setNotifier (pid : Int) (notifier : TerminationNotifier)
  | stop (name : String)
  | stopPid (pid : Int)
  | stopAll
  | reap (signum ret : Int) (status : WaitStatus)

/-- What `fork()` returns to the parent: `-1`, or the positive pid of the child. -/
def ForkRet (f : Int) : Prop := f = -1 ∨ 0 < f

/-- The system-call results of an operation are possible ones. -/
def Op.valid : Op → Prop
  | Op.start _ _ f => ForkRet f
  | Op.start2 _ _ _ _ _ f1 f2 => ForkRet f1 ∧ ForkRet f2
  | Op.start3 _ _ _ _ _ _ _ f1 f2 f3 => ForkRet f1 ∧ ForkRet f2 ∧ ForkRet f3
  | Op.startPiped _ _ _ _ _ _ _ _ f => ForkRet f
  | _ => True

/-- The state after an operation.  `Stop`, `Stop(pid)` and `StopAll` only send signals. -/
def Op.apply (DEBUG : Nat) (s : State) : Op → State
  | Op.start name cmd f => (Start s name cmd f).state
  | Op.start2 name cmd cmd2 p devnull f1 f2 => (Start2 s name cmd cmd2 p devnull f1 f2).state
  | Op.start3 name cmd cmd2 cmd3 p p2 devnull f1 f2 f3 =>
    (Start3 s name cmd cmd2 cmd3 p p2 devnull f1 f2 f3).state
  | Op.startPiped name argv fdin fdout fderr pin pout perr f =>
    (StartPiped s name argv fdin fdout fderr pin pout perr f).state
  | Op.setNotifier pid notifier => (SetTerminationNotifier s pid notifier).1
  | Op.stop _ => s
  | Op.stopPid _ => s
  | Op.stopAll => s
  | Op.reap signum ret status => (childsig_handler DEBUG s signum ret status).1

/-- The states reachable from the empty registry and the empty notifier table by a sequence of
operations. -/
inductive Reachable (DEBUG : Nat) : State → Prop where
  | init : Reachable DEBUG ⟨[], [], false⟩
  | step (s : State) (op : Op) : Reachable DEBUG s → op.valid →
      Reachable DEBUG (op.apply DEBUG s)

/-- The invariant of the two tables: every pid with an entry in the notifier table has a
record in the registry, and every pid in the registry is positive. -/
def Inv (s : State) : Prop :=
  (∀ p, (mapFind p s.exitHandlers).isSome = true → (mapFind p s.plist).isSome = true) ∧
    ∀ e ∈ s.plist, 0 < e.1

/-- A trace that only sends signals. -/
def OnlyKills (evs : List Event) : Prop := ∀ e ∈ evs, ∃ p, e = Event.kill p

/-- The pids of the processes a trace creates: the positive values returned by `fork()`. -/
def startedPids (evs : List Event) : List Int :=
  (forkRets evs).filter (fun r => decide (0 < r))

/-- The return contract of a launch made under a name that is not active: the call returns,
the value returned is `0` exactly when a `pipe` or a `fork` of the call failed, and a non-zero
value is the pid of a process forked in the call. -/
def ReturnContract (ret : Option Int) (events : List Event) : Prop :=
  ret ≠ none ∧ (ret = some 0 ↔ hasFailure events = true) ∧
    (∀ r, ret = some r → r ≠ 0 → r ∈ startedPids events)

end Util.Procs

namespace Util.Procs

/-! ## Facts about the map operations -/

theorem mapFind_isSome_iff {V : Type} (k : Int) (m : List (Int × V)) :
    (mapFind k m).isSome = true ↔ ∃ v, (k, v) ∈ m := by
  induction m with
  | nil => simp [mapFind]
  | cons e t ih =>
    obtain ⟨k', v'⟩ := e
    by_cases h : k' = k
    · subst h
      simp only [mapFind, if_true, Option.isSome_some, true_iff]
      exact ⟨v', List.mem_cons_self _ _⟩
    · simp only [mapFind, if_neg h, ih, List.mem_cons, Prod.mk.injEq]
      constructor
      · rintro ⟨v, hv⟩
        exact ⟨v, Or.inr hv⟩
      · rintro ⟨v, hv | hv⟩
        · exact absurd hv.1.symm h
        · exact ⟨v, hv⟩

theorem mapFind_eq_none_iff {V : Type} (k : Int) (m : List (Int × V)) :
    mapFind k m = none ↔ ∀ v, (k, v) ∉ m := by
  rw [← not_exists, ← mapFind_isSome_iff]
  cases mapFind k m <;> simp

theorem mapFind_mapErase {V : Type} (q k : Int) (m : List (Int × V)) :
    mapFind q (mapErase k m) = if q = k then none else mapFind q m := by
  induction m with
  | nil => simp [mapFind, mapErase]
  | cons e t ih =>
    obtain ⟨k', v'⟩ := e
    unfold mapErase at ih ⊢
    by_cases h : k' = k
    · subst h
      simp only [List.filter, ne_eq, not_true_eq_false, decide_False, ih, mapFind]
      by_cases hq : q = k'
      · simp [hq]
      · simp [hq, Ne.symm hq]
    · simp only [List.filter, ne_eq, h, not_false_eq_true, decide_True, mapFind, ih]
      by_cases hq : q = k
      · subst hq
        simp [h]
      · simp [hq]

theorem mapFind_mapAssign {V : Type} (q k : Int) (v : V) (m : List (Int × V)) :
    mapFind q (mapAssign k v m) = if q = k then some v else mapFind q m := by
  induction m with
  | nil =>
    by_cases hq : q = k
    · simp [mapFind, mapAssign, hq]
    · simp [mapFind, mapAssign, hq, Ne.symm hq]
  | cons e t ih =>
    obtain ⟨k', v'⟩ := e
    unfold mapAssign
    by_cases h1 : k < k'
    · by_cases hq : q = k
      · simp [h1, mapFind, hq]
      · simp [h1, mapFind, hq, Ne.symm hq]
    · by_cases h2 : k = k'
      · subst h2
        by_cases hq : q = k
        · simp [mapFind, hq]
        · simp [mapFind, hq, Ne.symm hq]
      · simp only [h1, h2, if_false, mapFind, ih]
        by_cases hq : q = k
        · subst hq
          simp [Ne.symm h2]
        · simp [hq]

theorem mem_insertSorted {V : Type} (k : Int) (v : V) (m : List (Int × V)) (e : Int × V) :
    e ∈ insertSorted k v m ↔ e = (k, v) ∨ e ∈ m := by
  induction m with
  | nil => simp [insertSorted]
  | cons a t ih =>
    obtain ⟨k', v'⟩ := a
    unfold insertSorted
    by_cases h1 : k < k'
    · simp only [h1, if_true, List.mem_cons]
    · simp only [h1, if_false, List.mem_cons, ih]
      tauto

theorem mapFind_insertSorted_ne {V : Type} (q k : Int) (v : V) (m : List (Int × V))
    (hq : q ≠ k) : mapFind q (insertSorted k v m) = mapFind q m := by
  induction m with
  | nil => simp [mapFind, insertSorted, Ne.symm hq]
  | cons e t ih =>
    obtain ⟨k', v'⟩ := e
    unfold insertSorted
    by_cases h1 : k < k'
    · simp [h1, mapFind, Ne.symm hq]
    · simp only [h1, if_false, mapFind, ih]

theorem mapFind_insertSorted_self {V : Type} (k : Int) (v : V) (m : List (Int × V))
    (hfresh : mapFind k m = none) : mapFind k (insertSorted k v m) = some v := by
  induction m with
  | nil => simp [mapFind, insertSorted]
  | cons e t ih =>
    obtain ⟨k', v'⟩ := e
    have h2 : k' ≠ k := by
      intro h
      simp [mapFind, h] at hfresh
    have ht : mapFind k t = none := by
      simpa [mapFind, h2] using hfresh
    unfold insertSorted
    by_cases h1 : k < k'
    · simp [h1, mapFind]
    · simp only [h1, if_false, mapFind, if_neg h2, ih ht]

theorem mem_mapInsert {V : Type} (k : Int) (v : V) (m : List (Int × V)) (e : Int × V) :
    e ∈ mapInsert k v m → e = (k, v) ∨ e ∈ m := by
  unfold mapInsert
  split
  · exact fun h => Or.inr h
  · exact (mem_insertSorted k v m e).1

theorem mem_mapInsert_of_mem {V : Type} (k : Int) (v : V) (m : List (Int × V)) (e : Int × V) :
    e ∈ m → e ∈ mapInsert k v m := by
  unfold mapInsert
  split
  · exact fun h => h
  · exact fun h => (mem_insertSorted k v m e).2 (Or.inr h)

theorem mapFind_mapInsert_ne {V : Type} (q k : Int) (v : V) (m : List (Int × V))
    (hq : q ≠ k) : mapFind q (mapInsert k v m) = mapFind q m := by
  unfold mapInsert
  split
  · rfl
  · exact mapFind_insertSorted_ne q k v m hq

theorem mapFind_mapInsert_self {V : Type} (k : Int) (v : V) (m : List (Int × V)) :
    mapFind k (mapInsert k v m) = some ((mapFind k m).getD v) := by
  unfold mapInsert
  cases h : mapFind k m with
  | none => simpa using mapFind_insertSorted_self k v m h
  | some a => simp [h]

theorem mapInsert_fresh_mem {V : Type} (k : Int) (v : V) (m : List (Int × V))
    (hfresh : mapFind k m = none) : (k, v) ∈ mapInsert k v m := by
  unfold mapInsert
  simp [hfresh, mem_insertSorted]

theorem mapErase_insertSorted {V : Type} (k : Int) (v : V) (m : List (Int × V)) :
    mapErase k (insertSorted k v m) = mapErase k m := by
  induction m with
  | nil => simp [mapErase, insertSorted]
  | cons e t ih =>
    obtain ⟨k', v'⟩ := e
    unfold insertSorted
    by_cases h1 : k < k'
    · simp [h1, mapErase, List.filter]
    · simp only [h1, if_false]
      unfold mapErase at ih ⊢
      simp only [List.filter, ih]

theorem mapErase_mapInsert {V : Type} (k : Int) (v : V) (m : List (Int × V)) :
    mapErase k (mapInsert k v m) = mapErase k m := by
  unfold mapInsert
  split
  · rfl
  · exact mapErase_insertSorted k v m

/-! ## Facts about the registry queries and the trace observers -/

theorem isActive_iff (name : String) (pl : List (Int × String)) :
    isActive name pl = true ↔ ∃ p, (p, name) ∈ pl := by
  induction pl with
  | nil => simp [isActive]
  | cons e t ih =>
    obtain ⟨p', n'⟩ := e
    by_cases h : n' = name
    · subst h
      simp only [isActive, if_true, true_iff]
      exact ⟨p', List.mem_cons_self _ _⟩
    · simp only [isActive, if_neg h, ih, List.mem_cons, Prod.mk.injEq]
      constructor
      · rintro ⟨p, hp⟩
        exact ⟨p, Or.inr hp⟩
      · rintro ⟨p, hp | hp⟩
        · exact absurd hp.2.symm h
        · exact ⟨p, hp⟩

theorem getPid_mem (name : String) (pl : List (Int × String))
    (h : isActive name pl = true) : (getPid name pl, name) ∈ pl := by
  induction pl with
  | nil => simp [isActive] at h
  | cons e t ih =>
    obtain ⟨p', n'⟩ := e
    by_cases hn : n' = name
    · subst hn
      simp [getPid]
    · simp only [isActive, if_neg hn] at h
      simp only [getPid, if_neg hn, List.mem_cons]
      exact Or.inr (ih h)

theorem notified_append (a b : List Event) : notified (a ++ b) = notified a ++ notified b := by
  induction a with
  | nil => rfl
  | cons e t ih => cases e <;> simp [notified, ih]

theorem forkRets_append (a b : List Event) : forkRets (a ++ b) = forkRets a ++ forkRets b := by
  induction a with
  | nil => rfl
  | cons e t ih => cases e <;> simp [forkRets, ih]

theorem pipeCalls_append (a b : List Event) :
    pipeCalls (a ++ b) = pipeCalls a ++ pipeCalls b := by
  induction a with
  | nil => rfl
  | cons e t ih => cases e <;> simp [pipeCalls, ih]

theorem killed_append (a b : List Event) : killed (a ++ b) = killed a ++ killed b := by
  induction a with
  | nil => rfl
  | cons e t ih => cases e <;> simp [killed, ih]

theorem closeCount_append (fd : Int) (a b : List Event) :
    closeCount fd (a ++ b) = closeCount fd a + closeCount fd b := by
  induction a with
  | nil => simp [closeCount]
  | cons e t ih => cases e <;> simp [closeCount, ih, Nat.add_assoc]

theorem StopPid_cases (pid : Int) (pl : List (Int × String)) :
    StopPid pid pl = [] ∨ StopPid pid pl = [Event.kill pid] := by
  unfold StopPid
  split
  · exact Or.inr rfl
  · exact Or.inl rfl

theorem OnlyKills_append {a b : List Event} (ha : OnlyKills a) (hb : OnlyKills b) :
    OnlyKills (a ++ b) := by
  intro e he
  rcases List.mem_append.1 he with h | h
  · exact ha e h
  · exact hb e h

theorem OnlyKills_nil : OnlyKills [] := by
  intro e he
  simp at he

theorem OnlyKills_StopPid (pid : Int) (pl : List (Int × String)) :
    OnlyKills (StopPid pid pl) := by
  rcases StopPid_cases pid pl with h | h
  · rw [h]
    exact OnlyKills_nil
  · rw [h]
    intro e he
    exact ⟨pid, by simpa using he⟩

theorem OnlyKills_StopLoop (name : String) (pl : List (Int × String)) (max : Nat) :
    OnlyKills (StopLoop name pl max) := by
  induction max with
  | zero => exact OnlyKills_nil
  | succ n ih =>
    unfold StopLoop
    split
    · apply OnlyKills_append (OnlyKills_StopPid _ _)
      split
      · exact OnlyKills_nil
      · exact ih
    · exact OnlyKills_nil

theorem OnlyKills_Stop (name : String) (pl : List (Int × String)) :
    OnlyKills (Stop name pl) :=
  OnlyKills_StopLoop name pl 5

theorem notified_of_OnlyKills {evs : List Event} (h : OnlyKills evs) : notified evs = [] := by
  induction evs with
  | nil => rfl
  | cons e t ih =>
    obtain ⟨p, hp⟩ := h e (List.mem_cons_self _ _)
    subst hp
    simp only [notified]
    exact ih (fun e he => h e (List.mem_cons_of_mem _ he))

theorem forkRets_of_OnlyKills {evs : List Event} (h : OnlyKills evs) : forkRets evs = [] := by
  induction evs with
  | nil => rfl
  | cons e t ih =>
    obtain ⟨p, hp⟩ := h e (List.mem_cons_self _ _)
    subst hp
    simp only [forkRets]
    exact ih (fun e he => h e (List.mem_cons_of_mem _ he))

theorem closeCount_of_OnlyKills (fd : Int) {evs : List Event} (h : OnlyKills evs) :
    closeCount fd evs = 0 := by
  induction evs with
  | nil => rfl
  | cons e t ih =>
    obtain ⟨p, hp⟩ := h e (List.mem_cons_self _ _)
    subst hp
    simp only [closeCount]
    exact ih (fun e he => h e (List.mem_cons_of_mem _ he))

/-! ## Termination notifiers -/

/-- C6: `SetTerminationNotifier(pid, cb)` returns true exactly when `pid` is in the registry;
when it returns false the state (hence the notifier table) is unchanged; when it returns true
the notifier table maps `pid` to `cb`, the entry of every other pid is as before, and the
registry and the handler flag are unchanged. -/
theorem SetTerminationNotifier_contract (s : State) (pid : Int) (cb : TerminationNotifier) :
    ((SetTerminationNotifier s pid cb).2 = true ↔ ∃ name, (pid, name) ∈ s.plist) ∧
    ((SetTerminationNotifier s pid cb).2 = false → (SetTerminationNotifier s pid cb).1 = s) ∧
    ((SetTerminationNotifier s pid cb).2 = true →
      mapFind pid (SetTerminationNotifier s pid cb).1.exitHandlers = some cb ∧
      (∀ q, q ≠ pid → mapFind q (SetTerminationNotifier s pid cb).1.exitHandlers =
        mapFind q s.exitHandlers) ∧
      (SetTerminationNotifier s pid cb).1.plist = s.plist ∧
      (SetTerminationNotifier s pid cb).1.handler_set = s.handler_set) := by
  unfold SetTerminationNotifier
  by_cases h : (mapFind pid s.plist).isSome = true
  · simp only [h, if_true, true_iff, true_implies, mapFind_mapAssign, and_true]
    refine ⟨(mapFind_isSome_iff pid s.plist).1 h, by simp, by simp, ?_⟩
    intro q hq
    simp [hq]
  · have h' : ¬ ∃ name, (pid, name) ∈ s.plist := fun hx =>
      h ((mapFind_isSome_iff pid s.plist).2 hx)
    simp [h, h']

/-- C6, at a concrete state: pid 7 is registered and gets the notifier 5 in place of the
notifier 3, while the notifier of pid 9 stays. -/
theorem SetTerminationNotifier_contract_witness :
    (SetTerminationNotifier ⟨[(7, "svc"), (9, "aux")], [(7, 3), (9, 4)], true⟩ 7 5).2 = true ∧
    mapFind 7 (SetTerminationNotifier
      ⟨[(7, "svc"), (9, "aux")], [(7, 3), (9, 4)], true⟩ 7 5).1.exitHandlers = some 5 ∧
    mapFind 9 (SetTerminationNotifier
      ⟨[(7, "svc"), (9, "aux")], [(7, 3), (9, 4)], true⟩ 7 5).1.exitHandlers = some 4 ∧
    (SetTerminationNotifier ⟨[(7, "svc"), (9, "aux")], [(7, 3), (9, 4)], true⟩ 8 5).2 = false ∧
    (SetTerminationNotifier ⟨[(7, "svc"), (9, "aux")], [(7, 3), (9, 4)], true⟩ 8 5).1 =
      ⟨[(7, "svc"), (9, "aux")], [(7, 3), (9, 4)], true⟩ :=
  ⟨by decide,
   ((SetTerminationNotifier_contract ⟨[(7, "svc"), (9, "aux")], [(7, 3), (9, 4)], true⟩ 7 5).2.2
      (by decide)).1,
   by decide, by decide,
   (SetTerminationNotifier_contract ⟨[(7, "svc"), (9, "aux")], [(7, 3), (9, 4)], true⟩ 8 5).2.1
      (by decide)⟩

/-! ## The `SIGCHLD` handler -/

theorem reapFinish_state (DEBUG : Nat) (s : State) (p code : Int) :
    (reapFinish DEBUG s p code).1 =
      { s with plist := mapErase p s.plist, exitHandlers := mapErase p s.exitHandlers } := by
  unfold reapFinish
  by_cases hD : DEBUG ≥ 1
  · simp only [hD, if_true, mapErase_mapInsert]
  · simp only [hD, if_false, mapErase_mapInsert]

theorem reapFinish_notified (DEBUG : Nat) (s : State) (p code : Int) :
    notified (reapFinish DEBUG s p code).2 =
      if (mapFind p s.exitHandlers).getD 0 = 0 then []
      else [((mapFind p s.exitHandlers).getD 0, p, code)] := by
  unfold reapFinish
  have hstop : ∀ evs : List Event, OnlyKills evs → ∀ tail : List Event,
      notified (evs ++ tail) = notified tail := by
    intro evs h tail
    rw [notified_append, notified_of_OnlyKills h, List.nil_append]
  have hk : OnlyKills (if DEBUG ≥ 1 then
      (if isActive ((mapFind p (if DEBUG ≥ 1 then mapInsert p "" s.plist else s.plist)).getD "")
          (mapErase p (if DEBUG ≥ 1 then mapInsert p "" s.plist else s.plist)) = true
        then Stop ((mapFind p (if DEBUG ≥ 1 then mapInsert p "" s.plist else s.plist)).getD "")
          (mapErase p (if DEBUG ≥ 1 then mapInsert p "" s.plist else s.plist))
        else [])
      else []) := by
    split
    · split
      · exact OnlyKills_Stop _ _
      · exact OnlyKills_nil
    · exact OnlyKills_nil
  simp only [hstop _ hk, mapFind_mapInsert_self, Option.getD_some]
  by_cases h0 : (mapFind p s.exitHandlers).getD 0 = 0
  · simp [h0, notified]
  · simp [h0, notified]

/-- C7: a `SIGCHLD` handler run whose non-blocking `waitpid` yields the pid `p > 0` with
status exited(`c`) or signaled(`sg`) removes `p` from the registry and from the notifier table,
keeps the entries of every other pid in both tables, and invokes the non-null notifier that was
pending for `p` exactly once, with `(p, c)` (non-negative) after a normal exit and with
`(p, -sg)` (negative) after a termination by signal; without a pending notifier nothing is
invoked, and a later reap of `p` in the resulting state invokes nothing.  When the signal is
not `SIGCHLD` or `waitpid` returns `0` or an error, the state is unchanged and nothing is
invoked. -/
theorem childsig_handler_reap (DEBUG : Nat) (s : State) (p : Int) (hp : 0 < p)
    (c sg : Nat) (hsg : 0 < sg) :
    (∀ (st : WaitStatus) (code : Int),
      (st = WaitStatus.exited c ∧ code = (c : Int)) ∨
        (st = WaitStatus.signaled sg ∧ code = -(sg : Int)) →
      mapFind p (childsig_handler DEBUG s SIGCHLD p st).1.plist = none ∧
      mapFind p (childsig_handler DEBUG s SIGCHLD p st).1.exitHandlers = none ∧
      (∀ q, q ≠ p →
        mapFind q (childsig_handler DEBUG s SIGCHLD p st).1.plist = mapFind q s.plist ∧
        mapFind q (childsig_handler DEBUG s SIGCHLD p st).1.exitHandlers =
          mapFind q s.exitHandlers) ∧
      (childsig_handler DEBUG s SIGCHLD p st).1.plist = mapErase p s.plist ∧
      (childsig_handler DEBUG s SIGCHLD p st).1.exitHandlers = mapErase p s.exitHandlers ∧
      (∀ tn, mapFind p s.exitHandlers = some tn → tn ≠ 0 →
        notified (childsig_handler DEBUG s SIGCHLD p st).2 = [(tn, p, code)]) ∧
      (mapFind p s.exitHandlers = none ∨ mapFind p s.exitHandlers = some 0 →
        notified (childsig_handler DEBUG s SIGCHLD p st).2 = []) ∧
      (st = WaitStatus.exited c → 0 ≤ code) ∧
      (st = WaitStatus.signaled sg → code < 0) ∧
      (∀ (DEBUG2 : Nat) (st2 : WaitStatus),
        notified (childsig_handler DEBUG2
          (childsig_handler DEBUG s SIGCHLD p st).1 SIGCHLD p st2).2 = [])) ∧
    (∀ (signum ret : Int) (st : WaitStatus), signum ≠ SIGCHLD ∨ ret ≤ 0 →
      (childsig_handler DEBUG s signum ret st).1 = s ∧
      notified (childsig_handler DEBUG s signum ret st).2 = []) := by
  have hp0 : ¬ p = 0 := by omega
  have hpn : ¬ p < 0 := by omega
  have key : ∀ (st : WaitStatus) (code : Int),
      (st = WaitStatus.exited c ∧ code = (c : Int)) ∨
        (st = WaitStatus.signaled sg ∧ code = -(sg : Int)) →
      childsig_handler DEBUG s SIGCHLD p st =
        ((reapFinish DEBUG s p code).1, Event.waitpid p :: (reapFinish DEBUG s p code).2) := by
    rintro st code (⟨h1, h2⟩ | ⟨h1, h2⟩)
    · subst h1 h2
      simp [childsig_handler, hp0, hpn]
    · subst h1 h2
      simp [childsig_handler, hp0, hpn]
  have later : ∀ (DEBUG2 : Nat) (s2 : State) (st2 : WaitStatus),
      mapFind p s2.exitHandlers = none →
      notified (childsig_handler DEBUG2 s2 SIGCHLD p st2).2 = [] := by
    intro D2 s2 st2 hnone
    cases st2 with
    | exited c2 =>
      simp [childsig_handler, hp0, hpn, notified, reapFinish_notified, hnone]
    | signaled sg2 =>
      simp [childsig_handler, hp0, hpn, notified, reapFinish_notified, hnone]
    | other => simp [childsig_handler, hp0, hpn, notified]
  refine ⟨?_, ?_⟩
  · intro st code hst
    rw [key st code hst]
    simp only [reapFinish_state, notified, reapFinish_notified]
    have herase : mapFind p (mapErase p s.exitHandlers) = none := by
      simp [mapFind_mapErase]
    refine ⟨by simp [mapFind_mapErase], herase, ?_, trivial, trivial, ?_, ?_, ?_, ?_, ?_⟩
    · intro q hq
      simp [mapFind_mapErase, hq]
    · intro tn htn htn0
      simp [htn, htn0]
    · rintro (h | h) <;> simp [h]
    · rintro rfl
      rcases hst with ⟨_, h2⟩ | ⟨h1, _⟩
      · rw [h2]
        exact Int.natCast_nonneg c
      · cases h1
    · rintro rfl
      rcases hst with ⟨h1, _⟩ | ⟨_, h2⟩
      · cases h1
      · rw [h2]
        omega
    · intro D2 st2
      exact later D2 _ st2 herase
  · rintro signum ret st (h | h)
    · simp [childsig_handler, h, notified]
    · by_cases hs : signum = SIGCHLD
      · by_cases h0 : ret = 0
        · simp [childsig_handler, hs, h0, notified]
        · have hlt : ret < 0 := by omega
          simp [childsig_handler, hs, h0, hlt, notified]
      · simp [childsig_handler, hs, notified]

/-- C7, at a concrete state: pid 7 carries the notifier 3 and exits with code 2, then is
reaped once more. -/
theorem childsig_handler_reap_witness :
    (0 : Int) < 7 ∧ 0 < 15 ∧
    notified (childsig_handler 0 ⟨[(7, "svc"), (9, "aux")], [(7, 3), (9, 4)], true⟩
      SIGCHLD 7 (WaitStatus.exited 2)).2 = [(3, 7, 2)] ∧
    (childsig_handler 0 ⟨[(7, "svc"), (9, "aux")], [(7, 3), (9, 4)], true⟩
      SIGCHLD 7 (WaitStatus.exited 2)).1 = ⟨[(9, "aux")], [(9, 4)], true⟩ ∧
    notified (childsig_handler 0 ⟨[(7, "svc"), (9, "aux")], [(7, 3), (9, 4)], true⟩
      SIGCHLD 7 (WaitStatus.signaled 15)).2 = [(3, 7, -15)] :=
  ⟨by decide, by decide,
   ((childsig_handler_reap 0 ⟨[(7, "svc"), (9, "aux")], [(7, 3), (9, 4)], true⟩ 7
      (by decide) 2 15 (by decide)).1 (WaitStatus.exited 2) 2 (Or.inl ⟨rfl, rfl⟩)).2.2.2.2.2.1
      3 (by decide) (by decide),
   by decide,
   ((childsig_handler_reap 0 ⟨[(7, "svc"), (9, "aux")], [(7, 3), (9, 4)], true⟩ 7
      (by decide) 2 15 (by decide)).1 (WaitStatus.signaled 15) (-15)
      (Or.inr ⟨rfl, rfl⟩)).2.2.2.2.2.1 3 (by decide) (by decide)⟩

/-! ## Launching under a name that is already active -/

theorem isActive_mapInsert_fresh (name : String) (pl : List (Int × String)) (f : Int)
    (hfresh : mapFind f pl = none) : isActive name (mapInsert f name pl) = true :=
  (isActive_iff name _).2 ⟨f, mapInsert_fresh_mem f name pl hfresh⟩

theorem getPid_mapInsert_fresh (name : String) (pl : List (Int × String)) (f : Int)
    (hinactive : isActive name pl = false) (hfresh : mapFind f pl = none) :
    getPid name (mapInsert f name pl) = f := by
  have hmem := getPid_mem name _ (isActive_mapInsert_fresh name pl f hfresh)
  rcases mem_mapInsert f name pl _ hmem with h | h
  · exact (Prod.mk.inj h).1
  · have hact : isActive name pl = true := (isActive_iff name pl).2 ⟨_, h⟩
    rw [hinactive] at hact
    cases hact

theorem installHandler_plist (s : State) : (installHandler s).1.plist = s.plist := by
  unfold installHandler
  split <;> rfl

theorem installHandler_exitHandlers (s : State) :
    (installHandler s).1.exitHandlers = s.exitHandlers := by
  unfold installHandler
  split <;> rfl

theorem installHandler_events (s : State) :
    (installHandler s).2 = [] ∨ (installHandler s).2 = [Event.sigaction] := by
  unfold installHandler
  split
  · exact Or.inr rfl
  · exact Or.inl rfl

/-- C1: under a name that is already active, in a registry whose pids are non-zero, each of
the four launch functions makes no system call (no `fork`, no `pipe`), leaves the whole state
(registry, notifier table, handler flag) and the descriptor arguments unchanged and returns
`getPid(name)`, which is non-zero and is the pid of a record registered under that name.
Hence, from a state where the name is not active, two consecutive calls `Start(name, cmd)`
whose first `fork` succeeds with a pid `f1 > 0` not yet in the registry both return `f1`, and
`fork` is called exactly once in the two calls together. -/
theorem Start_active_is_noop :
    (∀ (s : State) (name cmd cmd2 cmd3 : String) (argv : List String) (fdin fdout fderr : Int)
        (p p2 pin pout perr : PipeRes) (devnull f1 f2 f3 : Int),
      isActive name s.plist = true → (∀ e ∈ s.plist, e.1 ≠ 0) →
      Start s name cmd f1 = ⟨s, some (getPid name s.plist), []⟩ ∧
      Start2 s name cmd cmd2 p devnull f1 f2 = ⟨s, some (getPid name s.plist), []⟩ ∧
      Start3 s name cmd cmd2 cmd3 p p2 devnull f1 f2 f3 =
        ⟨s, some (getPid name s.plist), []⟩ ∧
      StartPiped s name argv fdin fdout fderr pin pout perr f1 =
        ⟨s, some (getPid name s.plist), [], fdin, fdout, fderr⟩ ∧
      getPid name s.plist ≠ 0 ∧
      (getPid name s.plist, name) ∈ s.plist) ∧
    (∀ (s : State) (name cmd : String) (f1 f2 : Int),
      isActive name s.plist = false → 0 < f1 → mapFind f1 s.plist = none →
      (Start s name cmd f1).ret = some f1 ∧
      (Start (Start s name cmd f1).state name cmd f2).ret = some f1 ∧
      (Start (Start s name cmd f1).state name cmd f2).state = (Start s name cmd f1).state ∧
      forkRets (Start s name cmd f1).events = [f1] ∧
      forkRets (Start (Start s name cmd f1).state name cmd f2).events = [] ∧
      (forkRets ((Start s name cmd f1).events ++
        (Start (Start s name cmd f1).state name cmd f2).events)).length = 1) := by
  refine ⟨?_, ?_⟩
  · intro s name cmd cmd2 cmd3 argv fdin fdout fderr p p2 pin pout perr devnull f1 f2 f3
      hact hnz
    have hmem := getPid_mem name s.plist hact
    refine ⟨by simp [Start, hact], by simp [Start2, hact], by simp [Start3, hact],
      by simp [StartPiped, hact], hnz _ hmem, hmem⟩
  · intro s name cmd f1 f2 hinact hpos hfresh
    have hne : ¬ f1 = 0 := by omega
    have hfresh2 : mapFind f1 (installHandler s).1.plist = none := by
      rw [installHandler_plist]
      exact hfresh
    have hinact2 : isActive name (installHandler s).1.plist = false := by
      rw [installHandler_plist]
      exact hinact
    have h1 : Start s name cmd f1 =
        ⟨register (installHandler s).1 f1 name, some f1,
          (installHandler s).2 ++ [Event.fork f1]⟩ := by
      simp [Start, hinact, hne, hpos]
    have hact2 : isActive name (register (installHandler s).1 f1 name).plist = true :=
      isActive_mapInsert_fresh name _ f1 hfresh2
    have hpid : getPid name (register (installHandler s).1 f1 name).plist = f1 :=
      getPid_mapInsert_fresh name _ f1 hinact2 hfresh2
    have h2 : Start (register (installHandler s).1 f1 name) name cmd f2 =
        ⟨register (installHandler s).1 f1 name, some f1, []⟩ := by
      simp [Start, hact2, hpid]
    have hev : forkRets ((installHandler s).2 ++ [Event.fork f1]) = [f1] := by
      rcases installHandler_events s with h | h <;> simp [h, forkRets]
    rw [h1]
    simp only [h2, hev, List.append_nil, forkRets, List.length_singleton, and_self]

/-- C1, at concrete states: `"svc"` is active under pid 7; `"job"` is not active and its
first `fork` yields the pid 8. -/
theorem Start_active_is_noop_witness :
    Start ⟨[(7, "svc")], [], true⟩ "svc" "sleep 1" 8 = ⟨⟨[(7, "svc")], [], true⟩, some 7, []⟩ ∧
    (Start ⟨[(7, "svc")], [], true⟩ "job" "sleep 1" 8).ret = some 8 ∧
    (Start (Start ⟨[(7, "svc")], [], true⟩ "job" "sleep 1" 8).state "job" "sleep 1" 9).ret =
      some 8 :=
  ⟨(Start_active_is_noop.1 ⟨[(7, "svc")], [], true⟩ "svc" "sleep 1" "" "" [] 0 0 0
      PipeRes.fail PipeRes.fail PipeRes.fail PipeRes.fail PipeRes.fail 0 8 0 0
      (by decide) (by decide)).1,
   (Start_active_is_noop.2 ⟨[(7, "svc")], [], true⟩ "job" "sleep 1" 8 9
      (by decide) (by decide) (by decide)).1,
   (Start_active_is_noop.2 ⟨[(7, "svc")], [], true⟩ "job" "sleep 1" 8 9
      (by decide) (by decide) (by decide)).2.1⟩

/-! ## The value returned by the launch functions -/

theorem hasFailure_append (a b : List Event) :
    hasFailure (a ++ b) = (hasFailure a || hasFailure b) := by
  induction a with
  | nil => rfl
  | cons e t ih =>
    cases e with
    | pipe res => cases res <;> simp [hasFailure, ih]
    | fork r =>
      by_cases hr : r < 0
      · simp [hasFailure, hr]
      · simp [hasFailure, hr, ih]
    | _ => simp [hasFailure, ih]

theorem startedPids_append (a b : List Event) :
    startedPids (a ++ b) = startedPids a ++ startedPids b := by
  simp [startedPids, forkRets_append]

theorem installHandler_hasFailure (s : State) : hasFailure (installHandler s).2 = false := by
  rcases installHandler_events s with h | h <;> simp [h, hasFailure]

theorem installHandler_forkRets (s : State) : forkRets (installHandler s).2 = [] := by
  rcases installHandler_events s with h | h <;> simp [h, forkRets]

theorem pipeEvent_hasFailure (fd : Int) (p : PipeRes) (q : Option (Int × Int))
    (h : requestPipe fd p = some q) : hasFailure (pipeEvent fd p) = false := by
  unfold requestPipe at h
  unfold pipeEvent
  by_cases hfd : fd = -1
  · cases p with
    | fail => simp [hfd] at h
    | ok r w => simp [hfd, hasFailure]
  · simp [hfd, hasFailure]

theorem pipeEvent_hasFailure_of_none (fd : Int) (p : PipeRes)
    (h : requestPipe fd p = none) : hasFailure (pipeEvent fd p) = true := by
  unfold requestPipe at h
  unfold pipeEvent
  by_cases hfd : fd = -1
  · cases p with
    | fail => simp [hfd, hasFailure]
    | ok r w => simp [hfd] at h
  · simp [hfd] at h

theorem pipeEvent_forkRets (fd : Int) (p : PipeRes) : forkRets (pipeEvent fd p) = [] := by
  unfold pipeEvent
  split <;> simp [forkRets]

theorem Start_returnContract (s : State) (name cmd : String) (f : Int)
    (hf : f = -1 ∨ 0 < f) (hin : isActive name s.plist = false) :
    ReturnContract (Start s name cmd f).ret (Start s name cmd f).events := by
  unfold ReturnContract Start
  rcases hf with hf | hf
  · subst hf
    simp [hin, hasFailure_append, hasFailure]
  · have h0 : ¬ f = 0 := by omega
    have hneg : ¬ f < 0 := by omega
    simp [hin, h0, hf, hneg, hasFailure_append, hasFailure, installHandler_hasFailure,
      startedPids_append, startedPids, forkRets, forkRets_append, installHandler_forkRets]

theorem Start2_returnContract (s : State) (name cmd cmd2 : String) (p : PipeRes)
    (devnull f1 f2 : Int) (hf1 : f1 = -1 ∨ 0 < f1) (hf2 : f2 = -1 ∨ 0 < f2)
    (hin : isActive name s.plist = false) :
    ReturnContract (Start2 s name cmd cmd2 p devnull f1 f2).ret
      (Start2 s name cmd cmd2 p devnull f1 f2).events := by
  unfold ReturnContract Start2
  cases p with
  | fail => simp [hin, hasFailure_append, hasFailure]
  | ok r w =>
    rcases hf1 with hf1 | hf1
    · subst hf1
      simp [hin, hasFailure_append, hasFailure]
    · have h0 : ¬ f1 = 0 := by omega
      have hneg : ¬ f1 < 0 := by omega
      rcases hf2 with hf2 | hf2
      · subst hf2
        simp [hin, h0, hf1, hasFailure_append, hasFailure]
      · have h20 : ¬ f2 = 0 := by omega
        have h2neg : ¬ f2 < 0 := by omega
        simp [hin, h0, hf1, hneg, h20, hf2, h2neg, hasFailure_append, hasFailure,
          installHandler_hasFailure, startedPids_append, startedPids, forkRets,
          forkRets_append, installHandler_forkRets]

theorem Start3_returnContract (s : State) (name cmd cmd2 cmd3 : String) (p p2 : PipeRes)
    (devnull f1 f2 f3 : Int) (hf1 : f1 = -1 ∨ 0 < f1) (hf2 : f2 = -1 ∨ 0 < f2)
    (hf3 : f3 = -1 ∨ 0 < f3) (hin : isActive name s.plist = false) :
    ReturnContract (Start3 s name cmd cmd2 cmd3 p p2 devnull f1 f2 f3).ret
      (Start3 s name cmd cmd2 cmd3 p p2 devnull f1 f2 f3).events := by
  unfold ReturnContract Start3
  cases p with
  | fail => simp [hin, hasFailure_append, hasFailure]
  | ok r w =>
    cases p2 with
    | fail => simp [hin, hasFailure_append, hasFailure]
    | ok r2 w2 =>
      rcases hf1 with hf1 | hf1
      · subst hf1
        simp [hin, hasFailure_append, hasFailure]
      · have h0 : ¬ f1 = 0 := by omega
        have hneg : ¬ f1 < 0 := by omega
        rcases hf2 with hf2 | hf2
        · subst hf2
          simp [hin, h0, hf1, hasFailure_append, hasFailure]
        · have h20 : ¬ f2 = 0 := by omega
          have h2neg : ¬ f2 < 0 := by omega
          rcases hf3 with hf3 | hf3
          · subst hf3
            simp [hin, h0, hf1, hneg, h20, hf2, h2neg, hasFailure_append, hasFailure]
          · have h30 : ¬ f3 = 0 := by omega
            have h3neg : ¬ f3 < 0 := by omega
            simp [hin, h0, hf1, hneg, h20, hf2, h2neg, h30, hf3, h3neg, hasFailure_append,
              hasFailure, installHandler_hasFailure, startedPids_append, startedPids, forkRets,
              forkRets_append, installHandler_forkRets]

theorem StartPiped_returnContract (s : State) (name : String) (argv : List String)
    (fdin fdout fderr : Int) (pin pout perr : PipeRes) (f : Int)
    (hf : f = -1 ∨ 0 < f) (hin : isActive name s.plist = false) :
    ReturnContract (StartPiped s name argv fdin fdout fderr pin pout perr f).ret
      (StartPiped s name argv fdin fdout fderr pin pout perr f).events := by
  unfold ReturnContract StartPiped
  simp only [hin, Bool.false_eq_true, if_false]
  cases h1 : requestPipe fdin pin with
  | none =>
    simp [hasFailure_append, pipeEvent_hasFailure_of_none fdin pin h1]
  | some q1 =>
    have e1 := pipeEvent_hasFailure fdin pin q1 h1
    cases h2 : requestPipe fdout pout with
    | none =>
      simp [hasFailure_append, pipeEvent_hasFailure_of_none fdout pout h2]
    | some q2 =>
      have e2 := pipeEvent_hasFailure fdout pout q2 h2
      cases h3 : requestPipe fderr perr with
      | none =>
        simp [hasFailure_append, pipeEvent_hasFailure_of_none fderr perr h3]
      | some q3 =>
        have e3 := pipeEvent_hasFailure fderr perr q3 h3
        rcases hf with hf | hf
        · subst hf
          simp [hasFailure_append, hasFailure]
        · have h0 : ¬ f = 0 := by omega
          have hneg : ¬ f < 0 := by omega
          have hm1 : ¬ f = -1 := by omega
          have c1 : hasFailure (parentStdin q1 fdin).1 = false := by
            cases q1 <;> rfl
          have c2 : hasFailure (parentOutput q2 fdout).1 = false := by
            cases q2 <;> rfl
          have c3 : hasFailure (parentOutput q3 fderr).1 = false := by
            cases q3 <;> rfl
          simp [h0, hm1, hneg, hf, hasFailure_append, hasFailure, installHandler_hasFailure,
            e1, e2, e3, c1, c2, c3, startedPids_append, startedPids, forkRets, forkRets_append,
            installHandler_forkRets, pipeEvent_forkRets]

/-- C2, refuted as stated: `"svc"` is active under pid 7, the call forks nothing, and yet it
returns 7, not 0. -/
theorem Start_active_returns_nonzero :
    isActive "svc" [(7, "svc")] = true ∧
    (Start ⟨[(7, "svc")], [], true⟩ "svc" "sleep 1" 8).ret = some 7 ∧
    startedPids (Start ⟨[(7, "svc")], [], true⟩ "svc" "sleep 1" 8).events = [] ∧
    ¬ ((Start ⟨[(7, "svc")], [], true⟩ "svc" "sleep 1" 8).ret = some 0 ↔
      startedPids (Start ⟨[(7, "svc")], [], true⟩ "svc" "sleep 1" 8).events = []) := by
  decide

/-- C2, amended: in the parent (every `fork` returns `-1` or a positive pid) and in a registry
whose pids are non-zero, each launch function returns as follows.  Under an active name it
forks nothing and returns the existing identifier `getPid(name)`, which is not 0.  Under a
name that is not active it returns 0 exactly when a `pipe` or a `fork` of the call failed, and
every non-zero value it returns is the pid of a process forked by this very call. -/
theorem Start_return_value (s : State) (name cmd cmd2 cmd3 : String) (argv : List String)
    (fdin fdout fderr : Int) (p p2 pin pout perr : PipeRes) (devnull f1 f2 f3 : Int)
    (hf1 : f1 = -1 ∨ 0 < f1) (hf2 : f2 = -1 ∨ 0 < f2) (hf3 : f3 = -1 ∨ 0 < f3)
    (hnz : ∀ e ∈ s.plist, e.1 ≠ 0) :
    (isActive name s.plist = true →
      getPid name s.plist ≠ 0 ∧
      (Start s name cmd f1).ret = some (getPid name s.plist) ∧
      startedPids (Start s name cmd f1).events = [] ∧
      (Start2 s name cmd cmd2 p devnull f1 f2).ret = some (getPid name s.plist) ∧
      startedPids (Start2 s name cmd cmd2 p devnull f1 f2).events = [] ∧
      (Start3 s name cmd cmd2 cmd3 p p2 devnull f1 f2 f3).ret = some (getPid name s.plist) ∧
      startedPids (Start3 s name cmd cmd2 cmd3 p p2 devnull f1 f2 f3).events = [] ∧
      (StartPiped s name argv fdin fdout fderr pin pout perr f1).ret =
        some (getPid name s.plist) ∧
      startedPids (StartPiped s name argv fdin fdout fderr pin pout perr f1).events = []) ∧
    (isActive name s.plist = false →
      ReturnContract (Start s name cmd f1).ret (Start s name cmd f1).events ∧
      ReturnContract (Start2 s name cmd cmd2 p devnull f1 f2).ret
        (Start2 s name cmd cmd2 p devnull f1 f2).events ∧
      ReturnContract (Start3 s name cmd cmd2 cmd3 p p2 devnull f1 f2 f3).ret
        (Start3 s name cmd cmd2 cmd3 p p2 devnull f1 f2 f3).events ∧
      ReturnContract (StartPiped s name argv fdin fdout fderr pin pout perr f1).ret
        (StartPiped s name argv fdin fdout fderr pin pout perr f1).events) := by
  refine ⟨?_, ?_⟩
  · intro hact
    refine ⟨hnz _ (getPid_mem name s.plist hact), ?_⟩
    simp [Start, Start2, Start3, StartPiped, hact, startedPids, forkRets]
  · intro hin
    exact ⟨Start_returnContract s name cmd f1 hf1 hin,
      Start2_returnContract s name cmd cmd2 p devnull f1 f2 hf1 hf2 hin,
      Start3_returnContract s name cmd cmd2 cmd3 p p2 devnull f1 f2 f3 hf1 hf2 hf3 hin,
      StartPiped_returnContract s name argv fdin fdout fderr pin pout perr f1 hf1 hin⟩

/-- C2 amended, at concrete inputs: `"svc"` is active under pid 7; for `"job"` the second
`fork` of a two-stage launch fails. -/
theorem Start_return_value_witness :
    (Start ⟨[(7, "svc")], [], true⟩ "svc" "a" 8).ret = some 7 ∧
    ReturnContract (Start2 ⟨[(7, "svc")], [], true⟩ "job" "a" "b" (PipeRes.ok 3 4) 5 8 (-1)).ret
      (Start2 ⟨[(7, "svc")], [], true⟩ "job" "a" "b" (PipeRes.ok 3 4) 5 8 (-1)).events ∧
    (Start2 ⟨[(7, "svc")], [], true⟩ "job" "a" "b" (PipeRes.ok 3 4) 5 8 (-1)).ret = some 0 :=
  ⟨((Start_return_value ⟨[(7, "svc")], [], true⟩ "svc" "a" "b" "c" [] 0 0 0
      (PipeRes.ok 3 4) PipeRes.fail PipeRes.fail PipeRes.fail PipeRes.fail 5 8 (-1) (-1)
      (by decide) (by decide) (by decide) (by decide)).1 (by decide)).2.1,
   ((Start_return_value ⟨[(7, "svc")], [], true⟩ "job" "a" "b" "c" [] 0 0 0
      (PipeRes.ok 3 4) PipeRes.fail PipeRes.fail PipeRes.fail PipeRes.fail 5 8 (-1) (-1)
      (by decide) (by decide) (by decide) (by decide)).2 (by decide)).2.1,
   by decide⟩

/-! ## Pipelines -/

/-- C3: when the name is not active and every `pipe` and `fork` succeeds, the two-stage launch
returns the pid `f1` of the first forked stage, whereas the three-stage launch returns the pid
`f3` of the stage forked last; in both the child of the first `fork` is the one that runs
`cmd`. -/
theorem Start3_returns_last_stage (s : State) (name cmd cmd2 cmd3 : String)
    (r w r2 w2 devnull f1 f2 f3 : Int) (hin : isActive name s.plist = false)
    (h1 : 0 < f1) (h2 : 0 < f2) (h3 : 0 < f3) :
    (Start2 s name cmd cmd2 (PipeRes.ok r w) devnull f1 f2).ret = some f1 ∧
    forkRets (Start2 s name cmd cmd2 (PipeRes.ok r w) devnull f1 f2).events = [f1, f2] ∧
    (Start3 s name cmd cmd2 cmd3 (PipeRes.ok r w) (PipeRes.ok r2 w2) devnull f1 f2 f3).ret =
      some f3 ∧
    forkRets (Start3 s name cmd cmd2 cmd3 (PipeRes.ok r w) (PipeRes.ok r2 w2)
      devnull f1 f2 f3).events = [f1, f2, f3] ∧
    (∃ before, (Start2 s name cmd cmd2 (PipeRes.ok r w) devnull 0 f2).events =
      before ++ runCmd cmd) ∧
    (∃ before, (Start3 s name cmd cmd2 cmd3 (PipeRes.ok r w) (PipeRes.ok r2 w2)
      devnull 0 f2 f3).events = before ++ runCmd cmd) := by
  have h10 : ¬ f1 = 0 := by omega
  have h20 : ¬ f2 = 0 := by omega
  have h30 : ¬ f3 = 0 := by omega
  refine ⟨by simp [Start2, hin, h10, h20, h1, h2], ?_, by simp [Start3, hin, h10, h20, h30, h1, h2, h3],
    ?_, ?_, ?_⟩
  · simp [Start2, hin, h10, h20, h1, h2, forkRets_append, installHandler_forkRets, forkRets]
  · simp [Start3, hin, h10, h20, h30, h1, h2, h3, forkRets_append, installHandler_forkRets,
      forkRets]
  · refine ⟨(installHandler s).2 ++ [Event.pipe (PipeRes.ok r w), Event.openDevNull devnull,
      Event.fork 0, Event.close r, Event.dup2 w STDOUT_FILENO, Event.close w,
      Event.dup2 devnull STDIN_FILENO, Event.dup2 devnull STDERR_FILENO], ?_⟩
    simp [Start2, hin]
  · refine ⟨(installHandler s).2 ++ [Event.pipe (PipeRes.ok r w), Event.pipe (PipeRes.ok r2 w2),
      Event.openDevNull devnull, Event.fork 0, Event.close r, Event.dup2 w STDOUT_FILENO,
      Event.close w, Event.dup2 devnull STDIN_FILENO, Event.dup2 devnull STDERR_FILENO,
      Event.close w2, Event.close r2], ?_⟩
    simp [Start3, hin]

/-- C3, at a concrete input: the three forks of `Start("p", "a", "b", "c")` yield the pids
101, 102 and 103, and the call returns 103. -/
theorem Start3_returns_last_stage_witness :
    (Start3 ⟨[], [], false⟩ "p" "a" "b" "c" (PipeRes.ok 3 4) (PipeRes.ok 5 6) 7
      101 102 103).ret = some 103 ∧
    forkRets (Start3 ⟨[], [], false⟩ "p" "a" "b" "c" (PipeRes.ok 3 4) (PipeRes.ok 5 6) 7
      101 102 103).events = [101, 102, 103] :=
  ⟨(Start3_returns_last_stage ⟨[], [], false⟩ "p" "a" "b" "c" 3 4 5 6 7 101 102 103
      (by decide) (by decide) (by decide) (by decide)).2.2.1,
   (Start3_returns_last_stage ⟨[], [], false⟩ "p" "a" "b" "c" 3 4 5 6 7 101 102 103
      (by decide) (by decide) (by decide) (by decide)).2.2.2.1⟩

theorem isActivePid_of_mem (p : Int) (n : String) (pl : List (Int × String))
    (h : (p, n) ∈ pl) : isActivePid p pl = true := by
  have hs : (mapFind p pl).isSome = true := (mapFind_isSome_iff p pl).2 ⟨n, h⟩
  simp [isActivePid, mapCount, hs]

theorem Stop_active (name : String) (pl : List (Int × String))
    (h : isActive name pl = true) :
    Stop name pl = List.replicate 5 (Event.kill (getPid name pl)) := by
  have hp : isActivePid (getPid name pl) pl = true :=
    isActivePid_of_mem _ name pl (getPid_mem name pl h)
  simp [Stop, StopLoop, StopPid, h, hp, List.replicate]

theorem mapErase_of_fresh {V : Type} (k : Int) (m : List (Int × V))
    (h : mapFind k m = none) : mapErase k m = m := by
  unfold mapErase
  rw [List.filter_eq_self]
  intro e he
  obtain ⟨k', v'⟩ := e
  have hne : k' ≠ k := by
    rintro rfl
    exact (mapFind_eq_none_iff k' m).1 h v' he
  simpa using hne

theorem getPid_mem_of_insert2 (name : String) (pl : List (Int × String)) (f1 f2 : Int)
    (hin : isActive name pl = false)
    (hact : isActive name (mapInsert f2 name (mapInsert f1 name pl)) = true) :
    getPid name (mapInsert f2 name (mapInsert f1 name pl)) = f1 ∨
      getPid name (mapInsert f2 name (mapInsert f1 name pl)) = f2 := by
  have hmem := getPid_mem name _ hact
  rcases mem_mapInsert f2 name _ _ hmem with h | h
  · exact Or.inr (Prod.mk.inj h).1
  · rcases mem_mapInsert f1 name _ _ h with h | h
    · exact Or.inl (Prod.mk.inj h).1
    · have hact2 : isActive name pl = true := (isActive_iff name pl).2 ⟨_, h⟩
      rw [hin] at hact2
      cases hact2

theorem killed_replicate (n : Nat) (p : Int) :
    killed (List.replicate n (Event.kill p)) = List.replicate n p := by
  induction n with
  | zero => rfl
  | succ k ih => simp [List.replicate, killed, ih]

theorem installHandler_killed (s : State) : killed (installHandler s).2 = [] := by
  rcases installHandler_events s with h | h <;> simp [h, killed]

/-- C4, refuted as stated: the second `fork` of a two-stage launch fails; the call returns 0,
and on return the first stage (pid 101) is still in the registry, which therefore differs from
the registry before the call. -/
theorem Start2_fork_failure_leaves_first_stage :
    (Start2 ⟨[(7, "svc")], [], true⟩ "p" "a" "b" (PipeRes.ok 3 4) 5 101 (-1)).ret = some 0 ∧
    (Start2 ⟨[(7, "svc")], [], true⟩ "p" "a" "b" (PipeRes.ok 3 4) 5 101 (-1)).state.plist =
      [(7, "svc"), (101, "p")] ∧
    mapFind 101 (Start2 ⟨[(7, "svc")], [], true⟩ "p" "a" "b" (PipeRes.ok 3 4) 5
      101 (-1)).state.plist = some "p" ∧
    (Start2 ⟨[(7, "svc")], [], true⟩ "p" "a" "b" (PipeRes.ok 3 4) 5 101 (-1)).state.plist ≠
      [(7, "svc")] := by
  decide

/-- C4, amended: when a `fork` fails in the middle of a two-stage or three-stage launch (name
not active, pipes created, the earlier forks returned pids not yet in the registry), the call
returns 0 and the stages it forked are still registered under the name when it returns: the
registry is the registry before the call with their records inserted, every other record is
as before, and the notifier table is unchanged.  The call only sends `SIGTERM`, five times,
and only to stages forked by this call; erasing their pids, as the reaper does, gives back the
registry of before the call. -/
theorem Start_fork_failure_keeps_stages (s : State) (name cmd cmd2 cmd3 : String)
    (r w r2 w2 devnull f1 f2 f3 : Int) (hin : isActive name s.plist = false)
    (h1 : 0 < f1) (hfresh1 : mapFind f1 s.plist = none) :
    (f2 < 0 →
      (Start2 s name cmd cmd2 (PipeRes.ok r w) devnull f1 f2).ret = some 0 ∧
      (Start2 s name cmd cmd2 (PipeRes.ok r w) devnull f1 f2).state.plist =
        mapInsert f1 name s.plist ∧
      (f1, name) ∈ (Start2 s name cmd cmd2 (PipeRes.ok r w) devnull f1 f2).state.plist ∧
      mapErase f1 (Start2 s name cmd cmd2 (PipeRes.ok r w) devnull f1 f2).state.plist =
        s.plist ∧
      (Start2 s name cmd cmd2 (PipeRes.ok r w) devnull f1 f2).state.exitHandlers =
        s.exitHandlers ∧
      killed (Start2 s name cmd cmd2 (PipeRes.ok r w) devnull f1 f2).events =
        [f1, f1, f1, f1, f1]) ∧
    (f2 < 0 →
      (Start3 s name cmd cmd2 cmd3 (PipeRes.ok r w) (PipeRes.ok r2 w2) devnull f1 f2 f3).ret =
        some 0 ∧
      (Start3 s name cmd cmd2 cmd3 (PipeRes.ok r w) (PipeRes.ok r2 w2)
        devnull f1 f2 f3).state.plist = mapInsert f1 name s.plist ∧
      (f1, name) ∈ (Start3 s name cmd cmd2 cmd3 (PipeRes.ok r w) (PipeRes.ok r2 w2)
        devnull f1 f2 f3).state.plist ∧
      mapErase f1 (Start3 s name cmd cmd2 cmd3 (PipeRes.ok r w) (PipeRes.ok r2 w2)
        devnull f1 f2 f3).state.plist = s.plist ∧
      (Start3 s name cmd cmd2 cmd3 (PipeRes.ok r w) (PipeRes.ok r2 w2)
        devnull f1 f2 f3).state.exitHandlers = s.exitHandlers ∧
      killed (Start3 s name cmd cmd2 cmd3 (PipeRes.ok r w) (PipeRes.ok r2 w2)
        devnull f1 f2 f3).events = [f1, f1, f1, f1, f1]) ∧
    (0 < f2 → mapFind f2 s.plist = none → f2 ≠ f1 → f3 < 0 →
      (Start3 s name cmd cmd2 cmd3 (PipeRes.ok r w) (PipeRes.ok r2 w2) devnull f1 f2 f3).ret =
        some 0 ∧
      (Start3 s name cmd cmd2 cmd3 (PipeRes.ok r w) (PipeRes.ok r2 w2)
        devnull f1 f2 f3).state.plist = mapInsert f2 name (mapInsert f1 name s.plist) ∧
      (f1, name) ∈ (Start3 s name cmd cmd2 cmd3 (PipeRes.ok r w) (PipeRes.ok r2 w2)
        devnull f1 f2 f3).state.plist ∧
      (f2, name) ∈ (Start3 s name cmd cmd2 cmd3 (PipeRes.ok r w) (PipeRes.ok r2 w2)
        devnull f1 f2 f3).state.plist ∧
      (∀ q, q ≠ f1 → q ≠ f2 →
        mapFind q (Start3 s name cmd cmd2 cmd3 (PipeRes.ok r w) (PipeRes.ok r2 w2)
          devnull f1 f2 f3).state.plist = mapFind q s.plist) ∧
      (Start3 s name cmd cmd2 cmd3 (PipeRes.ok r w) (PipeRes.ok r2 w2)
        devnull f1 f2 f3).state.exitHandlers = s.exitHandlers ∧
      (killed (Start3 s name cmd cmd2 cmd3 (PipeRes.ok r w) (PipeRes.ok r2 w2)
        devnull f1 f2 f3).events).length = 5 ∧
      (∀ k ∈ killed (Start3 s name cmd cmd2 cmd3 (PipeRes.ok r w) (PipeRes.ok r2 w2)
        devnull f1 f2 f3).events, k = f1 ∨ k = f2)) := by
  have h10 : ¬ f1 = 0 := by omega
  have hpl : (installHandler s).1.plist = s.plist := installHandler_plist s
  have heh : (installHandler s).1.exitHandlers = s.exitHandlers :=
    installHandler_exitHandlers s
  have hmem1 : (f1, name) ∈ mapInsert f1 name s.plist := mapInsert_fresh_mem f1 name _ hfresh1
  have hact1 : isActive name (mapInsert f1 name s.plist) = true :=
    isActive_mapInsert_fresh name _ f1 hfresh1
  have hpid1 : getPid name (mapInsert f1 name s.plist) = f1 :=
    getPid_mapInsert_fresh name _ f1 hin hfresh1
  have herase1 : mapErase f1 (mapInsert f1 name s.plist) = s.plist := by
    rw [mapErase_mapInsert, mapErase_of_fresh f1 _ hfresh1]
  refine ⟨?_, ?_, ?_⟩
  · intro hf2
    have h20 : ¬ f2 = 0 := by omega
    have h2p : ¬ 0 < f2 := by omega
    simp [Start2, hin, h10, h1, h20, h2p, register, hpl, heh, hmem1, herase1,
      Stop_active _ _ hact1, hpid1, killed_append, installHandler_killed, killed,
      killed_replicate, List.replicate]
  · intro hf2
    have h20 : ¬ f2 = 0 := by omega
    have h2p : ¬ 0 < f2 := by omega
    simp [Start3, hin, h10, h1, h20, h2p, register, hpl, heh, hmem1, herase1,
      Stop_active _ _ hact1, hpid1, killed_append, installHandler_killed, killed,
      killed_replicate, List.replicate]
  · intro hf2 hfresh2 hne hf3
    have h20 : ¬ f2 = 0 := by omega
    have h30 : ¬ f3 = 0 := by omega
    have h3p : ¬ 0 < f3 := by omega
    have hfresh2b : mapFind f2 (mapInsert f1 name s.plist) = none := by
      rw [mapFind_mapInsert_ne f2 f1 name s.plist hne]
      exact hfresh2
    have hmem2 : (f2, name) ∈ mapInsert f2 name (mapInsert f1 name s.plist) :=
      mapInsert_fresh_mem f2 name _ hfresh2b
    have hmem1b : (f1, name) ∈ mapInsert f2 name (mapInsert f1 name s.plist) :=
      mem_mapInsert_of_mem f2 name _ _ hmem1
    have hact2 : isActive name (mapInsert f2 name (mapInsert f1 name s.plist)) = true :=
      (isActive_iff name _).2 ⟨f2, hmem2⟩
    have hpid2 := getPid_mem_of_insert2 name s.plist f1 f2 hin hact2
    have hfind : ∀ q, q ≠ f1 → q ≠ f2 →
        mapFind q (mapInsert f2 name (mapInsert f1 name s.plist)) = mapFind q s.plist := by
      intro q hq1 hq2
      rw [mapFind_mapInsert_ne q f2 name _ hq2, mapFind_mapInsert_ne q f1 name _ hq1]
    simp only [Start3, hin, h10, h1, h20, hf2, h30, h3p, register, hpl, heh,
      Stop_active _ _ hact2, Bool.false_eq_true, if_false, if_true]
    refine ⟨trivial, trivial, hmem1b, hmem2, hfind, trivial, ?_, ?_⟩
    · simp [killed_append, installHandler_killed, killed, killed_replicate]
    · intro k hk
      simp only [killed_append, installHandler_killed, killed, killed_replicate,
        List.nil_append, List.append_nil] at hk
      have hk2 : k = getPid name (mapInsert f2 name (mapInsert f1 name s.plist)) := by
        simpa using hk
      rw [hk2]
      exact hpid2

/-- C4 amended, at concrete inputs: the second `fork` of a two-stage launch fails after the
first returned the pid 101; the third `fork` of a three-stage launch fails after the first two
returned the pids 101 and 102. -/
theorem Start_fork_failure_keeps_stages_witness :
    (Start2 ⟨[(7, "svc")], [], true⟩ "p" "a" "b" (PipeRes.ok 3 4) 5 101 (-1)).ret = some 0 ∧
    (101, "p") ∈
      (Start2 ⟨[(7, "svc")], [], true⟩ "p" "a" "b" (PipeRes.ok 3 4) 5 101 (-1)).state.plist ∧
    killed (Start2 ⟨[(7, "svc")], [], true⟩ "p" "a" "b" (PipeRes.ok 3 4) 5 101 (-1)).events =
      [101, 101, 101, 101, 101] ∧
    (Start3 ⟨[(7, "svc")], [], true⟩ "p" "a" "b" "c" (PipeRes.ok 3 4) (PipeRes.ok 8 9) 5
      101 102 (-1)).state.plist = [(7, "svc"), (101, "p"), (102, "p")] ∧
    (102, "p") ∈ (Start3 ⟨[(7, "svc")], [], true⟩ "p" "a" "b" "c" (PipeRes.ok 3 4)
      (PipeRes.ok 8 9) 5 101 102 (-1)).state.plist :=
  ⟨((Start_fork_failure_keeps_stages ⟨[(7, "svc")], [], true⟩ "p" "a" "b" "c" 3 4 8 9 5
      101 (-1) 0 (by decide) (by decide) (by decide)).1 (by decide)).1,
   ((Start_fork_failure_keeps_stages ⟨[(7, "svc")], [], true⟩ "p" "a" "b" "c" 3 4 8 9 5
      101 (-1) 0 (by decide) (by decide) (by decide)).1 (by decide)).2.2.1,
   ((Start_fork_failure_keeps_stages ⟨[(7, "svc")], [], true⟩ "p" "a" "b" "c" 3 4 8 9 5
      101 (-1) 0 (by decide) (by decide) (by decide)).1 (by decide)).2.2.2.2.2,
   by decide,
   ((Start_fork_failure_keeps_stages ⟨[(7, "svc")], [], true⟩ "p" "a" "b" "c" 3 4 8 9 5
      101 102 (-1) (by decide) (by decide) (by decide)).2.2 (by decide) (by decide)
      (by decide) (by decide)).2.2.2.1⟩

/-! ## Pipe endpoints -/

theorem createdFds_append (a b : List Event) :
    createdFds (a ++ b) = createdFds a ++ createdFds b := by
  induction a with
  | nil => rfl
  | cons e t ih =>
    cases e with
    | pipe res => cases res <;> simp [createdFds, ih]
    | _ => simp [createdFds, ih]

theorem createdFds_of_OnlyKills {evs : List Event} (h : OnlyKills evs) :
    createdFds evs = [] := by
  induction evs with
  | nil => rfl
  | cons e t ih =>
    obtain ⟨p, hp⟩ := h e (List.mem_cons_self _ _)
    subst hp
    simp only [createdFds]
    exact ih (fun e he => h e (List.mem_cons_of_mem _ he))

theorem installHandler_createdFds (s : State) : createdFds (installHandler s).2 = [] := by
  rcases installHandler_events s with h | h <;> simp [h, createdFds]

theorem installHandler_closeCount (fd : Int) (s : State) :
    closeCount fd (installHandler s).2 = 0 := by
  rcases installHandler_events s with h | h <;> simp [h, closeCount]

/-- The two-stage launch, in the parent and under a name that is not active, closes every
pipe endpoint as many times as it was created, whatever the `pipe` and the two `fork` calls
return. -/
theorem Start2_closes_each_endpoint_once (s : State) (name cmd cmd2 : String) (p : PipeRes)
    (devnull f1 f2 fd : Int) (hin : isActive name s.plist = false)
    (h1 : f1 ≠ 0) (h2 : f2 ≠ 0) :
    closeCount fd (Start2 s name cmd cmd2 p devnull f1 f2).events =
      List.count fd (createdFds (Start2 s name cmd cmd2 p devnull f1 f2).events) := by
  have hk := OnlyKills_Stop name (register (installHandler s).1 f1 name).plist
  cases p with
  | fail =>
    simp [Start2, hin, closeCount_append, createdFds_append, installHandler_createdFds,
      installHandler_closeCount, closeCount, createdFds]
  | ok r w =>
    by_cases hf1 : 0 < f1
    · by_cases hf2 : 0 < f2
      · simp [Start2, hin, h1, h2, hf1, hf2, closeCount_append, createdFds_append,
          installHandler_createdFds, installHandler_closeCount, closeCount, createdFds,
          List.count_cons, Nat.add_comm]
      · simp [Start2, hin, h1, h2, hf1, hf2, closeCount_append, createdFds_append,
          installHandler_createdFds, installHandler_closeCount, closeCount, createdFds,
          closeCount_of_OnlyKills fd hk, createdFds_of_OnlyKills hk, List.count_cons,
          Nat.add_comm]
    · simp [Start2, hin, h1, hf1, closeCount_append, createdFds_append,
        installHandler_createdFds, installHandler_closeCount, closeCount, createdFds,
        List.count_cons, Nat.add_comm]

/-- C5: the three-stage launch does not close every pipe endpoint exactly once.  With the name
not active, four distinct descriptors and the first two forks successful: when the third
`fork` succeeds the endpoints of the second pipe are never closed by the parent; when the
third `fork` fails the endpoints of the first pipe are closed twice; and when the second
`pipe` fails the endpoints of the first pipe are never closed. -/
theorem Start3_pipe_endpoints_not_closed_once (s : State) (name cmd cmd2 cmd3 : String)
    (r w r2 w2 devnull f1 f2 f3 : Int) (hin : isActive name s.plist = false)
    (hfd : [r, w, r2, w2].Nodup) (h1 : 0 < f1) (h2 : 0 < f2) :
    (0 < f3 →
      createdFds (Start3 s name cmd cmd2 cmd3 (PipeRes.ok r w) (PipeRes.ok r2 w2)
        devnull f1 f2 f3).events = [r, w, r2, w2] ∧
      closeCount r2 (Start3 s name cmd cmd2 cmd3 (PipeRes.ok r w) (PipeRes.ok r2 w2)
        devnull f1 f2 f3).events = 0 ∧
      closeCount w2 (Start3 s name cmd cmd2 cmd3 (PipeRes.ok r w) (PipeRes.ok r2 w2)
        devnull f1 f2 f3).events = 0) ∧
    (f3 < 0 →
      createdFds (Start3 s name cmd cmd2 cmd3 (PipeRes.ok r w) (PipeRes.ok r2 w2)
        devnull f1 f2 f3).events = [r, w, r2, w2] ∧
      closeCount r (Start3 s name cmd cmd2 cmd3 (PipeRes.ok r w) (PipeRes.ok r2 w2)
        devnull f1 f2 f3).events = 2 ∧
      closeCount w (Start3 s name cmd cmd2 cmd3 (PipeRes.ok r w) (PipeRes.ok r2 w2)
        devnull f1 f2 f3).events = 2) ∧
    (createdFds (Start3 s name cmd cmd2 cmd3 (PipeRes.ok r w) PipeRes.fail
        devnull f1 f2 f3).events = [r, w] ∧
      closeCount r (Start3 s name cmd cmd2 cmd3 (PipeRes.ok r w) PipeRes.fail
        devnull f1 f2 f3).events = 0 ∧
      closeCount w (Start3 s name cmd cmd2 cmd3 (PipeRes.ok r w) PipeRes.fail
        devnull f1 f2 f3).events = 0) := by
  have h10 : ¬ f1 = 0 := by omega
  have h20 : ¬ f2 = 0 := by omega
  have hk := OnlyKills_Stop name (register (register (installHandler s).1 f1 name) f2 name).plist
  simp only [List.nodup_cons, List.mem_cons, List.mem_singleton, not_or, List.not_mem_nil,
    not_false_eq_true, List.nodup_nil, and_true] at hfd
  obtain ⟨⟨hrw, hrr2, hrw2⟩, ⟨hwr2, hww2⟩, hr2w2⟩ := hfd
  refine ⟨?_, ?_, ?_⟩
  · intro h3
    have h30 : ¬ f3 = 0 := by omega
    simp [Start3, hin, h10, h20, h30, h1, h2, h3, closeCount_append, createdFds_append,
      installHandler_createdFds, installHandler_closeCount, closeCount, createdFds,
      hrr2, hwr2, hrw2, hww2]
  · intro h3
    have h30 : ¬ f3 = 0 := by omega
    have h3p : ¬ 0 < f3 := by omega
    simp [Start3, hin, h10, h20, h30, h1, h2, h3p, closeCount_append, createdFds_append,
      installHandler_createdFds, installHandler_closeCount, closeCount, createdFds,
      closeCount_of_OnlyKills _ hk, createdFds_of_OnlyKills hk, hrw, Ne.symm hrw,
      Ne.symm hrr2, Ne.symm hwr2, Ne.symm hrw2, Ne.symm hww2]
  · simp [Start3, hin, closeCount_append, createdFds_append,
      installHandler_createdFds, installHandler_closeCount, closeCount, createdFds]

/-- C5, at a concrete input: pipes (3, 4) and (5, 6), forks 101, 102, 103; the parent closes 4
and 3 only, so 5 and 6 stay open. -/
theorem Start3_pipe_endpoints_not_closed_once_witness :
    createdFds (Start3 ⟨[], [], false⟩ "p" "a" "b" "c" (PipeRes.ok 3 4) (PipeRes.ok 5 6) 7
      101 102 103).events = [3, 4, 5, 6] ∧
    closeCount 5 (Start3 ⟨[], [], false⟩ "p" "a" "b" "c" (PipeRes.ok 3 4) (PipeRes.ok 5 6) 7
      101 102 103).events = 0 ∧
    closeCount 6 (Start3 ⟨[], [], false⟩ "p" "a" "b" "c" (PipeRes.ok 3 4) (PipeRes.ok 5 6) 7
      101 102 103).events = 0 ∧
    closeCount 3 (Start3 ⟨[], [], false⟩ "p" "a" "b" "c" (PipeRes.ok 3 4) (PipeRes.ok 5 6) 7
      101 102 (-1)).events = 2 :=
  ⟨((Start3_pipe_endpoints_not_closed_once ⟨[], [], false⟩ "p" "a" "b" "c" 3 4 5 6 7
      101 102 103 (by decide) (by decide) (by decide) (by decide)).1 (by decide)).1,
   ((Start3_pipe_endpoints_not_closed_once ⟨[], [], false⟩ "p" "a" "b" "c" 3 4 5 6 7
      101 102 103 (by decide) (by decide) (by decide) (by decide)).1 (by decide)).2.1,
   ((Start3_pipe_endpoints_not_closed_once ⟨[], [], false⟩ "p" "a" "b" "c" 3 4 5 6 7
      101 102 103 (by decide) (by decide) (by decide) (by decide)).1 (by decide)).2.2,
   ((Start3_pipe_endpoints_not_closed_once ⟨[], [], false⟩ "p" "a" "b" "c" 3 4 5 6 7
      101 102 (-1) (by decide) (by decide) (by decide) (by decide)).2.1 (by decide)).2.1⟩

/-! ## `StartPiped` -/

theorem stream_cases (fd : Int) (p : PipeRes) :
    (fd ≠ -1 ∧ True ∧ requestPipe fd p = some none ∧ pipeEvent fd p = []) ∨
    (fd = -1 ∧ p = PipeRes.fail ∧ requestPipe fd p = none ∧
      pipeEvent fd p = [Event.pipe PipeRes.fail]) ∨
    (∃ r w, fd = -1 ∧ p = PipeRes.ok r w ∧ requestPipe fd p = some (some (r, w)) ∧
      pipeEvent fd p = [Event.pipe (PipeRes.ok r w)]) := by
  by_cases h : fd = -1
  · cases p with
    | fail => exact Or.inr (Or.inl ⟨h, rfl, by simp [requestPipe, h], by simp [pipeEvent, h]⟩)
    | ok r w =>
      exact Or.inr (Or.inr ⟨r, w, h, rfl, by simp [requestPipe, h], by simp [pipeEvent, h]⟩)
  · exact Or.inl ⟨h, trivial, by simp [requestPipe, h], by simp [pipeEvent, h]⟩

theorem length_insertSorted {V : Type} (k : Int) (v : V) (m : List (Int × V)) :
    (insertSorted k v m).length = m.length + 1 := by
  induction m with
  | nil => rfl
  | cons e t ih =>
    obtain ⟨k', v'⟩ := e
    unfold insertSorted
    split
    · rfl
    · simp [ih]

theorem length_mapInsert_fresh {V : Type} (k : Int) (v : V) (m : List (Int × V))
    (h : mapFind k m = none) : (mapInsert k v m).length = m.length + 1 := by
  simp [mapInsert, h, length_insertSorted]

theorem mem_mapInsert_fresh_iff {V : Type} (k : Int) (v : V) (m : List (Int × V))
    (h : mapFind k m = none) (e : Int × V) : e ∈ mapInsert k v m ↔ e = (k, v) ∨ e ∈ m := by
  simp [mapInsert, h, mem_insertSorted]

set_option maxHeartbeats 4000000 in
/-- C9: `StartPiped` under a name that is not active, in the parent (`fork` returns `-1` or a
positive pid), with result `R`.  A `pipe` is created only for the streams given as `-1`.  When
a requested `pipe` or the `fork` fails, the call returns 0, the three descriptor arguments,
the registry and the notifier table are unchanged, and every endpoint created in the call is
closed as many times as it was created.  When every requested `pipe` and the `fork` succeed,
the call returns the pid, a requested stream holds the caller-side endpoint (write end for
stdin, read end for stdout and stderr), a caller-supplied descriptor is unchanged, the
registry is the old one with `(pid, name)` inserted, which for a pid not yet registered adds
exactly that one record, and the parent has closed exactly the endpoints it does not hand
back. -/
theorem StartPiped_contract (s : State) (name : String) (argv : List String)
    (fdin fdout fderr : Int) (pin pout perr : PipeRes) (f : Int) (R : PipedResult)
    (hR : R = StartPiped s name argv fdin fdout fderr pin pout perr f)
    (hin : isActive name s.plist = false) (hf : f = -1 ∨ 0 < f) :
    pipeCalls R.events <+: ((if fdin = -1 then [pin] else []) ++
      (if fdout = -1 then [pout] else []) ++ (if fderr = -1 then [perr] else [])) ∧
    ((fdin = -1 ∧ pin = PipeRes.fail) ∨ (fdout = -1 ∧ pout = PipeRes.fail) ∨
        (fderr = -1 ∧ perr = PipeRes.fail) ∨ f = -1 →
      R.ret = some 0 ∧ R.fdin = fdin ∧ R.fdout = fdout ∧ R.fderr = fderr ∧
      R.state.plist = s.plist ∧ R.state.exitHandlers = s.exitHandlers ∧
      ∀ fd, closeCount fd R.events = List.count fd (createdFds R.events)) ∧
    ((fdin = -1 → pin ≠ PipeRes.fail) → (fdout = -1 → pout ≠ PipeRes.fail) →
        (fderr = -1 → perr ≠ PipeRes.fail) → 0 < f →
      R.ret = some f ∧
      (∀ r w, fdin = -1 → pin = PipeRes.ok r w → R.fdin = w) ∧
      (∀ r w, fdout = -1 → pout = PipeRes.ok r w → R.fdout = r) ∧
      (∀ r w, fderr = -1 → perr = PipeRes.ok r w → R.fderr = r) ∧
      (fdin ≠ -1 → R.fdin = fdin) ∧ (fdout ≠ -1 → R.fdout = fdout) ∧
      (fderr ≠ -1 → R.fderr = fderr) ∧
      pipeCalls R.events = (if fdin = -1 then [pin] else []) ++
        (if fdout = -1 then [pout] else []) ++ (if fderr = -1 then [perr] else []) ∧
      R.state.plist = mapInsert f name s.plist ∧
      R.state.exitHandlers = s.exitHandlers ∧
      (mapFind f s.plist = none →
        R.state.plist.length = s.plist.length + 1 ∧
        ∀ e, e ∈ R.state.plist ↔ e = (f, name) ∨ e ∈ s.plist) ∧
      ∀ fd, closeCount fd R.events +
        List.count fd ((if fdin = -1 then [R.fdin] else []) ++
          (if fdout = -1 then [R.fdout] else []) ++ (if fderr = -1 then [R.fderr] else [])) =
        List.count fd (createdFds R.events)) := by
  subst hR
  have hpl : (installHandler s).1.plist = s.plist := installHandler_plist s
  have heh : (installHandler s).1.exitHandlers = s.exitHandlers :=
    installHandler_exitHandlers s
  have hpc : pipeCalls (installHandler s).2 = [] := by
    rcases installHandler_events s with h | h <;> simp [h, pipeCalls]
  have hfresh : mapFind f s.plist = none →
      (mapInsert f name s.plist).length = s.plist.length + 1 ∧
      ∀ (a : Int) (b : String),
        (a, b) ∈ mapInsert f name s.plist ↔ a = f ∧ b = name ∨ (a, b) ∈ s.plist := fun h =>
    ⟨length_mapInsert_fresh f name _ h, fun a b => by
      simpa using mem_mapInsert_fresh_iff f name _ h (a, b)⟩
  have hf0 : ¬ f = 0 := by omega
  rcases stream_cases fdin pin with ⟨i1, i0, i2, i3⟩ | ⟨i1, i0, i2, i3⟩ |
    ⟨ri, wi, i1, i0, i2, i3⟩ <;>
  rcases stream_cases fdout pout with ⟨o1, o0, o2, o3⟩ | ⟨o1, o0, o2, o3⟩ |
    ⟨ro, wo, o1, o0, o2, o3⟩ <;>
  rcases stream_cases fderr perr with ⟨e1, e0, e2, e3⟩ | ⟨e1, e0, e2, e3⟩ |
    ⟨re, we, e1, e0, e2, e3⟩ <;>
  rcases hf with hf | hf <;>
  simp only [StartPiped, hin, i2, i3, o2, o3, e2, e3, Bool.false_eq_true, if_false, hf0] <;>
  first
    | (have hf1 : ¬ f = -1 := by omega
       simp [i1, o1, e1, hf1, hf, hpl, heh, hpc,
         register, closeBoth, parentStdin, parentOutput, pipeCalls, pipeCalls_append,
         closeCount, closeCount_append, createdFds, createdFds_append,
         installHandler_closeCount, installHandler_createdFds, List.count_cons, i0, o0, e0]
       first
         | exact hfresh
         | exact ⟨hfresh, fun fd => by omega⟩)
    | (simp [i1, o1, e1, hf, hpl, heh, hpc,
         register, closeBoth, parentStdin, parentOutput, pipeCalls, pipeCalls_append,
         closeCount, closeCount_append, createdFds, createdFds_append,
         installHandler_closeCount, installHandler_createdFds, List.count_cons, i0, o0, e0]
       try omega)

/-- C9, at a concrete input: stdin and stderr are requested, stdout is the caller's
descriptor 8, the pipes are (3, 4) and (10, 11), and `fork` returns 55. -/
theorem StartPiped_contract_witness :
    (StartPiped ⟨[(7, "svc")], [], true⟩ "job" ["cat"] (-1) 8 (-1)
      (PipeRes.ok 3 4) PipeRes.fail (PipeRes.ok 10 11) 55).ret = some 55 ∧
    (StartPiped ⟨[(7, "svc")], [], true⟩ "job" ["cat"] (-1) 8 (-1)
      (PipeRes.ok 3 4) PipeRes.fail (PipeRes.ok 10 11) 55).fdin = 4 ∧
    (StartPiped ⟨[(7, "svc")], [], true⟩ "job" ["cat"] (-1) 8 (-1)
      (PipeRes.ok 3 4) PipeRes.fail (PipeRes.ok 10 11) 55).fdout = 8 ∧
    (StartPiped ⟨[(7, "svc")], [], true⟩ "job" ["cat"] (-1) 8 (-1)
      (PipeRes.ok 3 4) PipeRes.fail (PipeRes.ok 10 11) 55).fderr = 10 ∧
    (StartPiped ⟨[(7, "svc")], [], true⟩ "job" ["cat"] (-1) 8 (-1)
      (PipeRes.ok 3 4) PipeRes.fail (PipeRes.ok 10 11) (-1)).ret = some 0 :=
  ⟨((StartPiped_contract ⟨[(7, "svc")], [], true⟩ "job" ["cat"] (-1) 8 (-1)
      (PipeRes.ok 3 4) PipeRes.fail (PipeRes.ok 10 11) 55 _ rfl (by decide) (by decide)).2.2
      (by decide) (by decide) (by decide) (by decide)).1,
   ((StartPiped_contract ⟨[(7, "svc")], [], true⟩ "job" ["cat"] (-1) 8 (-1)
      (PipeRes.ok 3 4) PipeRes.fail (PipeRes.ok 10 11) 55 _ rfl (by decide) (by decide)).2.2
      (by decide) (by decide) (by decide) (by decide)).2.1 3 4 rfl rfl,
   ((StartPiped_contract ⟨[(7, "svc")], [], true⟩ "job" ["cat"] (-1) 8 (-1)
      (PipeRes.ok 3 4) PipeRes.fail (PipeRes.ok 10 11) 55 _ rfl (by decide) (by decide)).2.2
      (by decide) (by decide) (by decide) (by decide)).2.2.2.2.2.1 (by decide),
   ((StartPiped_contract ⟨[(7, "svc")], [], true⟩ "job" ["cat"] (-1) 8 (-1)
      (PipeRes.ok 3 4) PipeRes.fail (PipeRes.ok 10 11) 55 _ rfl (by decide) (by decide)).2.2
      (by decide) (by decide) (by decide) (by decide)).2.2.2.1 10 11 rfl rfl,
   ((StartPiped_contract ⟨[(7, "svc")], [], true⟩ "job" ["cat"] (-1) 8 (-1)
      (PipeRes.ok 3 4) PipeRes.fail (PipeRes.ok 10 11) (-1) _ rfl (by decide) (by decide)).2.1
      (Or.inr (Or.inr (Or.inr rfl)))).1⟩

/-! ## The command tokenizer -/

theorem splitOnP_eq (s : List Char) :
    s.splitOnP (fun c => decide (c = ' ')) =
      s.takeWhile (fun c => decide (c ≠ ' ')) ::
        (match s.dropWhile (fun c => decide (c ≠ ' ')) with
          | [] => []
          | _ :: r => r.splitOnP (fun c => decide (c = ' '))) := by
  induction s with
  | nil => rfl
  | cons x xs ih =>
    rw [List.splitOnP_cons]
    by_cases hx : x = ' '
    · simp [hx]
    · rw [ih]
      simp [hx, List.modifyHead]

theorem specTokens_nil : specTokens [] = [] := by
  simp [specTokens]

theorem specTokens_space (s : List Char) : specTokens (' ' :: s) = specTokens s := by
  simp [specTokens]

theorem specTokens_dropWhile (s : List Char) :
    specTokens (s.dropWhile (fun c => decide (c = ' '))) = specTokens s := by
  induction s with
  | nil => rfl
  | cons x xs ih =>
    by_cases hx : x = ' '
    · subst hx
      simp only [List.dropWhile_cons, decide_True, if_true, specTokens_space]
      exact ih
    · simp [List.dropWhile_cons, hx]

theorem specTokens_cons_ne (c : Char) (cs : List Char) (hc : c ≠ ' ') :
    specTokens (c :: cs) =
      (c :: cs).takeWhile (fun c => decide (c ≠ ' ')) ::
        specTokens ((c :: cs).dropWhile (fun c => decide (c ≠ ' '))).tail := by
  unfold specTokens
  rw [splitOnP_eq (c :: cs)]
  have hne : (c :: cs).takeWhile (fun c => decide (c ≠ ' ')) ≠ [] := by
    simp [List.takeWhile_cons, hc]
  rw [List.filter_cons_of_pos (by simpa using hne)]
  congr 1
  cases h : (c :: cs).dropWhile (fun c => decide (c ≠ ' ')) with
  | nil => simp
  | cons y ys => simp

theorem strtok_fst (s : List Char) : (strtok s).1 = (specTokens s).head? := by
  rw [← specTokens_dropWhile s]
  unfold strtok
  cases h : s.dropWhile (fun c => decide (c = ' ')) with
  | nil => simp [specTokens_nil]
  | cons c cs =>
    have hc : c ≠ ' ' := by
      have := List.head?_dropWhile_not (fun c => decide (c = ' ')) s
      rw [h] at this
      simpa using this
    rw [specTokens_cons_ne c cs hc]
    rfl

theorem strtok_snd (s : List Char) : specTokens (strtok s).2 = (specTokens s).tail := by
  rw [← specTokens_dropWhile s]
  unfold strtok
  cases h : s.dropWhile (fun c => decide (c = ' ')) with
  | nil => simp [specTokens_nil]
  | cons c cs =>
    have hc : c ≠ ' ' := by
      have := List.head?_dropWhile_not (fun c => decide (c = ' ')) s
      rw [h] at this
      simpa using this
    rw [specTokens_cons_ne c cs hc]
    rfl

theorem applyWrites_append (w : List (Nat × CharPtr)) (e : Nat × CharPtr)
    (a : List (Option CharPtr)) :
    applyWrites (w ++ [e]) a = (applyWrites w a).set e.1 (some e.2) := by
  simp [applyWrites, List.foldl_append]

theorem argsAfter_zero (toks : List (List Char)) :
    applyWrites [(0, toks[0]?)] argsInit = argsAfter toks 0 := by
  simp [applyWrites, argsInit, argsAfter, List.replicate]

theorem argsAfter_succ (toks : List (List Char)) (i : Nat) (hi : i < toks.length)
    (h20 : i < 20) :
    (argsAfter toks i).set (i + 1) (some toks[i + 1]?) = argsAfter toks (i + 1) := by
  unfold argsAfter
  have hlen : ((toks.take i).map (fun t => some (some t)) ++ [some toks[i]?]).length = i + 1 := by
    simp [List.length_take, Nat.min_eq_left (Nat.le_of_lt hi)]
  have hrep : List.replicate (20 - i) (none : Option CharPtr) =
      none :: List.replicate (20 - (i + 1)) none := by
    have : 20 - i = (20 - (i + 1)) + 1 := by omega
    rw [this, List.replicate_succ]
  have htake : (toks.take (i + 1)).map (fun t => some (some t)) =
      (toks.take i).map (fun t => (some (some t) : Option CharPtr)) ++ [some toks[i]?] := by
    rw [List.take_succ, List.getElem?_eq_getElem hi, List.map_append]
    rfl
  rw [List.set_append_right _ _ (by rw [hlen]), hlen, Nat.sub_self, hrep, htake]
  simp

theorem argsAfter_final (toks : List (List Char)) :
    (if min toks.length 20 = 20 then
        (argsAfter toks (min toks.length 20)).set 20 (some none)
      else argsAfter toks (min toks.length 20)) =
      (toks.take 20).map (fun t => some (some t)) ++ [some none] ++
        List.replicate (20 - min toks.length 20) none := by
  by_cases h : 20 ≤ toks.length
  · have hm : min toks.length 20 = 20 := Nat.min_eq_right h
    rw [hm, if_pos rfl]
    unfold argsAfter
    have hlen : ((toks.take 20).map (fun t => (some (some t) : Option CharPtr))).length = 20 := by
      simp [List.length_take, Nat.min_eq_left h]
    rw [List.append_assoc, List.append_assoc, List.set_append_right _ _ (by rw [hlen]), hlen]
    simp
  · have hlt : toks.length < 20 := by omega
    have hm : min toks.length 20 = toks.length := Nat.min_eq_left (Nat.le_of_lt hlt)
    have hne : ¬ toks.length = 20 := by omega
    rw [hm, if_neg hne]
    unfold argsAfter
    rw [List.getElem?_eq_none (Nat.le_refl _), List.take_of_length_le (Nat.le_refl _),
      List.take_of_length_le (Nat.le_of_lt hlt)]

theorem runCmdLoop_spec (toks : List (List Char)) :
    ∀ (fuel i : Nat) (rest : List Char) (w : List (Nat × CharPtr)),
      i ≤ 20 → i ≤ toks.length → 20 - i < fuel → specTokens rest = toks.drop (i + 1) →
      (∀ e ∈ w, e.1 ≤ 20) → applyWrites w argsInit = argsAfter toks i →
      ∃ w2, runCmdLoop rest toks[i]? i w fuel = some (min toks.length 20, w2) ∧
        (∀ e ∈ w2, e.1 ≤ 20) ∧
        applyWrites w2 argsInit = argsAfter toks (min toks.length 20) := by
  intro fuel
  induction fuel with
  | zero =>
    intro i rest w _ _ hfuel
    omega
  | succ n ih =>
    intro i rest w hi20 hin hfuel hrest hw harr
    unfold runCmdLoop
    by_cases hcond : toks[i]? ≠ none ∧ i < 20
    · have hlt : i < toks.length := by
        by_contra hge
        exact hcond.1 (List.getElem?_eq_none (by omega))
      rw [if_pos hcond]
      have h1 : (strtok rest).1 = toks[i + 1]? := by
        rw [strtok_fst, hrest, List.head?_drop]
      have h2 : specTokens (strtok rest).2 = toks.drop (i + 1 + 1) := by
        rw [strtok_snd, hrest, List.tail_drop]
      simp only [h1]
      apply ih (i + 1) (strtok rest).2 (w ++ [(i + 1, toks[i + 1]?)]) (by omega) (by omega)
        (by omega) h2
      · intro e he
        rcases List.mem_append.1 he with h | h
        · exact hw e h
        · have he2 : e = (i + 1, toks[i + 1]?) := by simpa using h
          rw [he2]
          show i + 1 ≤ 20
          omega
      · rw [applyWrites_append, harr]
        exact argsAfter_succ toks i hlt hcond.2
    · rw [if_neg hcond]
      have hmin : min toks.length 20 = i := by
        by_cases h20 : i < 20
        · have hnone : toks[i]? = none := by
            by_contra hne
            exact hcond ⟨hne, h20⟩
          have hge : toks.length ≤ i := by
            by_contra hlt
            rw [List.getElem?_eq_getElem (by omega)] at hnone
            cases hnone
          omega
        · omega
      rw [hmin]
      exact ⟨w, rfl, hw, harr⟩

theorem runCmdWrites_spec (cmd : List Char) :
    ∃ w, runCmdWrites cmd = some w ∧ (∀ e ∈ w, e.1 ≤ 20) ∧
      applyWrites w argsInit =
        ((specTokens (c_str cmd)).take 20).map (fun t => some (some t)) ++ [some none] ++
          List.replicate (20 - min (specTokens (c_str cmd)).length 20) none := by
  have h1 : (strtok (c_str cmd)).1 = (specTokens (c_str cmd))[0]? := by
    rw [strtok_fst, List.head?_eq_getElem?]
  have h2 : specTokens (strtok (c_str cmd)).2 = (specTokens (c_str cmd)).drop (0 + 1) := by
    rw [strtok_snd]
    cases specTokens (c_str cmd) <;> rfl
  obtain ⟨w2, hrun, hidx, harr⟩ := runCmdLoop_spec (specTokens (c_str cmd)) 21 0
    (strtok (c_str cmd)).2 [(0, (specTokens (c_str cmd))[0]?)] (by omega) (by omega) (by omega)
    h2 (by simp) (argsAfter_zero _)
  unfold runCmdWrites
  simp only [h1, hrun]
  by_cases hm : min (specTokens (c_str cmd)).length 20 = 20
  · refine ⟨w2 ++ [(20, none)], by simp [hm], ?_, ?_⟩
    · intro e he
      rcases List.mem_append.1 he with h | h
      · exact hidx e h
      · have he2 : e = (20, none) := by simpa using h
        rw [he2]
    · rw [applyWrites_append, harr, ← argsAfter_final, if_pos hm]
  · refine ⟨w2, by simp [hm], hidx, ?_⟩
    rw [harr, ← argsAfter_final, if_neg hm]

theorem argvOf_tokens (toks : List (List Char)) (rest : List (Option CharPtr)) :
    argvOf (toks.map (fun t => some (some t)) ++ [some none] ++ rest) = some toks := by
  induction toks with
  | nil => rfl
  | cons t ts ih =>
    show Option.map (fun l => t :: l)
      (argvOf (ts.map (fun t => some (some t)) ++ [some none] ++ rest)) = some (t :: ts)
    rw [ih]
    rfl

theorem c_str_of_no_nul (cmd : List Char) (h : ∀ c ∈ cmd, c ≠ Char.ofNat 0) :
    c_str cmd = cmd := by
  unfold c_str
  rw [List.takeWhile_eq_self_iff]
  intro c hc
  simpa using h c hc

/-- C8: for every command string, `runCmd` writes only to the slots `0..20` of the 21-slot
array `args`, and leaves in it the first `min(n, 20)` of the `n` space-separated tokens of the
string (as a C string, that is up to its first NUL, which is all of it when it holds no NUL),
followed by a null pointer; this is the argument vector `execvp` receives.  With more than 20
tokens the vector is exactly the first 20 tokens and slot 20 is null.  The command
`"echo a b c"` yields `["echo", "a", "b", "c"]`. -/
theorem runCmd_argument_vector (cmd : String) :
    (∃ w, runCmdWrites cmd.data = some w ∧ ∀ e ∈ w, e.1 ≤ 20) ∧
    runCmdArgs cmd.data =
      some (((specTokens (c_str cmd.data)).take (min (specTokens (c_str cmd.data)).length 20)).map
        (fun t => some (some t)) ++ [some none] ++
          List.replicate (20 - min (specTokens (c_str cmd.data)).length 20) none) ∧
    (runCmdArgs cmd.data).bind argvOf =
      some ((specTokens (c_str cmd.data)).take (min (specTokens (c_str cmd.data)).length 20)) ∧
    runCmd cmd = [Event.execvp
      (some ((specTokens (c_str cmd.data)).take (min (specTokens (c_str cmd.data)).length 20)))] ∧
    ((∀ c ∈ cmd.data, c ≠ Char.ofNat 0) → c_str cmd.data = cmd.data) ∧
    (20 < (specTokens (c_str cmd.data)).length →
      (runCmdArgs cmd.data).bind argvOf = some ((specTokens (c_str cmd.data)).take 20) ∧
      ((specTokens (c_str cmd.data)).take 20).length = 20 ∧
      (runCmdArgs cmd.data).map (fun a => a[20]?) = some (some (some none))) ∧
    specTokens "echo a b c".data = ["echo".data, "a".data, "b".data, "c".data] ∧
    (runCmdArgs "echo a b c".data).bind argvOf =
      some ["echo".data, "a".data, "b".data, "c".data] := by
  obtain ⟨w, hw, hidx, harr⟩ := runCmdWrites_spec cmd.data
  have htake : (specTokens (c_str cmd.data)).take (min (specTokens (c_str cmd.data)).length 20) =
      (specTokens (c_str cmd.data)).take 20 := by
    rw [List.take_eq_take]
    simp [Nat.min_comm]
  have hargs : runCmdArgs cmd.data =
      some (((specTokens (c_str cmd.data)).take 20).map (fun t => some (some t)) ++
        [some none] ++ List.replicate (20 - min (specTokens (c_str cmd.data)).length 20) none) := by
    simp [runCmdArgs, hw, harr]
  have hargv : (runCmdArgs cmd.data).bind argvOf =
      some ((specTokens (c_str cmd.data)).take 20) := by
    rw [hargs, Option.some_bind, argvOf_tokens]
  refine ⟨⟨w, hw, hidx⟩, ?_, ?_, ?_, c_str_of_no_nul cmd.data, ?_, ?_, ?_⟩
  · rw [htake]
    exact hargs
  · rw [htake]
    exact hargv
  · rw [htake]
    simp [runCmd, hargv]
  · intro hlen
    refine ⟨hargv, by simp [List.length_take]; omega, ?_⟩
    rw [hargs]
    have hl : ((specTokens (c_str cmd.data)).take 20).length = 20 := by
      simp [List.length_take]
      omega
    have hl2 : (((specTokens (c_str cmd.data)).take 20).map
        (fun t => (some (some t) : Option CharPtr))).length = 20 := by
      rw [List.length_map, hl]
    simp only [Option.map_some', List.append_assoc]
    rw [List.getElem?_append_right (by rw [hl2]), hl2]
    simp
  · decide
  · decide

/-- C8, at concrete inputs: the command `"echo a b c"` holds no NUL character; a command of
23 tokens is cut to its first 20. -/
theorem runCmd_argument_vector_witness :
    (∀ c ∈ "echo a b c".data, c ≠ Char.ofNat 0) ∧
    c_str "echo a b c".data = "echo a b c".data ∧
    runCmd "echo a b c" =
      [Event.execvp (some ["echo".data, "a".data, "b".data, "c".data])] ∧
    20 < (specTokens (c_str "a b c d e f g h i j k l m n o p q r s t u v w".data)).length ∧
    (runCmdArgs "a b c d e f g h i j k l m n o p q r s t u v w".data).map (fun a => a[20]?) =
      some (some (some none)) :=
  ⟨by decide, (runCmd_argument_vector "echo a b c").2.2.2.2.1 (by decide), by decide,
   by decide,
   ((runCmd_argument_vector "a b c d e f g h i j k l m n o p q r s t u v w").2.2.2.2.2.1
      (by decide)).2.2⟩

/-! ## The invariant of the reachable states -/

theorem Inv_installHandler {s : State} (h : Inv s) : Inv (installHandler s).1 := by
  unfold Inv
  rw [installHandler_plist, installHandler_exitHandlers]
  exact h

theorem mapFind_isSome_mapInsert {V : Type} (q k : Int) (v : V) (m : List (Int × V))
    (h : (mapFind q m).isSome = true) : (mapFind q (mapInsert k v m)).isSome = true := by
  obtain ⟨a, ha⟩ := (mapFind_isSome_iff q m).1 h
  exact (mapFind_isSome_iff q _).2 ⟨a, mem_mapInsert_of_mem k v m _ ha⟩

theorem Inv_register {s : State} (h : Inv s) (f : Int) (name : String) (hf : 0 < f) :
    Inv (register s f name) := by
  refine ⟨?_, ?_⟩
  · intro p hp
    exact mapFind_isSome_mapInsert p f name _ (h.1 p hp)
  · intro e he
    rcases mem_mapInsert f name s.plist e he with h1 | h1
    · rw [h1]
      exact hf
    · exact h.2 e h1

/-- A property of states that survives the installation of the handler and the registration
of a positive pid survives every launch function. -/
theorem Start_preserves (P : State → Prop) (hI : ∀ s, P s → P (installHandler s).1)
    (hR : ∀ s f name, P s → 0 < f → P (register s f name))
    {s : State} (h : P s) (name cmd : String) (f : Int) : P (Start s name cmd f).state := by
  unfold Start
  split_ifs with h1 h2 h3
  · exact h
  · exact hI s h
  · exact hR _ f name (hI s h) h3
  · exact hI s h

theorem Start2_preserves (P : State → Prop) (hI : ∀ s, P s → P (installHandler s).1)
    (hR : ∀ s f name, P s → 0 < f → P (register s f name))
    {s : State} (h : P s) (name cmd cmd2 : String) (p : PipeRes) (devnull f1 f2 : Int) :
    P (Start2 s name cmd cmd2 p devnull f1 f2).state := by
  have hi := hI s h
  unfold Start2
  cases p with
  | fail =>
    simp only []
    split_ifs
    · exact h
    · exact hi
  | ok r w =>
    simp only []
    split_ifs with h1 h2 h3 h4 h5
    · exact h
    · exact hi
    · exact hR _ f1 name hi h3
    · exact hR _ f2 name (hR _ f1 name hi h3) h5
    · exact hR _ f1 name hi h3
    · exact hi

theorem Start3_preserves (P : State → Prop) (hI : ∀ s, P s → P (installHandler s).1)
    (hR : ∀ s f name, P s → 0 < f → P (register s f name))
    {s : State} (h : P s) (name cmd cmd2 cmd3 : String) (p p2 : PipeRes)
    (devnull f1 f2 f3 : Int) :
    P (Start3 s name cmd cmd2 cmd3 p p2 devnull f1 f2 f3).state := by
  have hi := hI s h
  unfold Start3
  cases p with
  | fail =>
    simp only []
    split_ifs
    · exact h
    · exact hi
  | ok r w =>
    cases p2 with
    | fail =>
      simp only []
      split_ifs
      · exact h
      · exact hi
    | ok r2 w2 =>
      simp only []
      split_ifs with h1 h2 h3 h4 h5 h6 h7
      · exact h
      · exact hi
      · exact hR _ f1 name hi h3
      · exact hR _ f2 name (hR _ f1 name hi h3) h5
      · exact hR _ f3 name (hR _ f2 name (hR _ f1 name hi h3) h5) h7
      · exact hR _ f2 name (hR _ f1 name hi h3) h5
      · exact hR _ f1 name hi h3
      · exact hi

theorem StartPiped_preserves (P : State → Prop) (hI : ∀ s, P s → P (installHandler s).1)
    (hR : ∀ s f name, P s → 0 < f → P (register s f name))
    {s : State} (h : P s) (name : String) (argv : List String)
    (fdin fdout fderr : Int) (pin pout perr : PipeRes) (f : Int) (hf : ForkRet f) :
    P (StartPiped s name argv fdin fdout fderr pin pout perr f).state := by
  unfold ForkRet at hf
  have hi := hI s h
  unfold StartPiped
  by_cases h1 : isActive name s.plist = true
  · rw [if_pos h1]
    exact h
  · rw [if_neg h1]
    cases requestPipe fdin pin with
    | none => exact hi
    | some q1 =>
      cases requestPipe fdout pout with
      | none => exact hi
      | some q2 =>
        cases requestPipe fderr perr with
        | none => exact hi
        | some q3 =>
          by_cases h2 : f = 0
          · simp only [h2, if_true]
            exact hi
          · by_cases h3 : f = -1
            · simp only [h3, if_true]
              exact hi
            · simp only [h2, h3, if_false]
              exact hR _ f name hi (by omega)

theorem childsig_handler_preserves (P : State → Prop)
    (hF : ∀ s DEBUG p code, P s → P (reapFinish DEBUG s p code).1)
    {s : State} (h : P s) (DEBUG : Nat) (signum ret : Int) (status : WaitStatus) :
    P (childsig_handler DEBUG s signum ret status).1 := by
  unfold childsig_handler
  split_ifs
  · exact h
  · exact h
  · exact h
  · cases status with
    | exited c => exact hF s DEBUG ret (c : Int) h
    | signaled sg => exact hF s DEBUG ret (-(sg : Int)) h
    | other => exact h

theorem apply_preserves (P : State → Prop) (hI : ∀ s, P s → P (installHandler s).1)
    (hR : ∀ s f name, P s → 0 < f → P (register s f name))
    (hN : ∀ s pid tn, P s → P (SetTerminationNotifier s pid tn).1)
    (hF : ∀ s DEBUG p code, P s → P (reapFinish DEBUG s p code).1)
    {s : State} (h : P s) (DEBUG : Nat) (op : Op) (hv : op.valid) : P (op.apply DEBUG s) := by
  cases op with
  | start name cmd f => exact Start_preserves P hI hR h name cmd f
  | start2 name cmd cmd2 p devnull f1 f2 =>
    exact Start2_preserves P hI hR h name cmd cmd2 p devnull f1 f2
  | start3 name cmd cmd2 cmd3 p p2 devnull f1 f2 f3 =>
    exact Start3_preserves P hI hR h name cmd cmd2 cmd3 p p2 devnull f1 f2 f3
  | startPiped name argv fdin fdout fderr pin pout perr f =>
    exact StartPiped_preserves P hI hR h name argv fdin fdout fderr pin pout perr f hv
  | setNotifier pid tn => exact hN s pid tn h
  | stop name => exact h
  | stopPid pid => exact h
  | stopAll => exact h
  | reap signum ret status => exact childsig_handler_preserves P hF h DEBUG signum ret status

theorem reachable_preserves (P : State → Prop) (h0 : P ⟨[], [], false⟩)
    (hI : ∀ s, P s → P (installHandler s).1)
    (hR : ∀ s f name, P s → 0 < f → P (register s f name))
    (hN : ∀ s pid tn, P s → P (SetTerminationNotifier s pid tn).1)
    (hF : ∀ s DEBUG p code, P s → P (reapFinish DEBUG s p code).1)
    (DEBUG : Nat) (s : State) (h : Reachable DEBUG s) : P s := by
  induction h with
  | init => exact h0
  | step s op _ hv ih => exact apply_preserves P hI hR hN hF ih DEBUG op hv

theorem Inv_SetTerminationNotifier {s : State} (h : Inv s) (pid : Int)
    (tn : TerminationNotifier) : Inv (SetTerminationNotifier s pid tn).1 := by
  unfold SetTerminationNotifier
  split_ifs with h1
  · refine ⟨?_, h.2⟩
    intro p hp
    simp only [mapFind_mapAssign] at hp
    by_cases hpp : p = pid
    · rw [hpp]
      exact h1
    · rw [if_neg hpp] at hp
      exact h.1 p hp
  · exact h

theorem Inv_reapFinish {s : State} (h : Inv s) (DEBUG : Nat) (p code : Int) :
    Inv (reapFinish DEBUG s p code).1 := by
  rw [reapFinish_state]
  refine ⟨?_, ?_⟩
  · intro q hq
    simp only [mapFind_mapErase] at hq ⊢
    by_cases hqp : q = p
    · simp [hqp] at hq
    · rw [if_neg hqp] at hq ⊢
      exact h.1 q hq
  · intro e he
    exact h.2 e (List.mem_filter.1 he).1

theorem Inv_init : Inv ⟨[], [], false⟩ := by
  refine ⟨?_, ?_⟩
  · intro p hp
    simp [mapFind] at hp
  · intro e he
    simp at he

/-! ### The tables stay maps -/

theorem MapWF_nil {V : Type} : MapWF ([] : List (Int × V)) := by
  simp [MapWF]

theorem MapWF_cons {V : Type} (k : Int) (v : V) (m : List (Int × V)) :
    MapWF ((k, v) :: m) ↔ (∀ e ∈ m, k < e.1) ∧ MapWF m := by
  simp [MapWF, List.pairwise_cons]

theorem keys_insertSorted {V : Type} (k : Int) (v : V) (m : List (Int × V)) (e : Int × V)
    (he : e ∈ insertSorted k v m) : e.1 = k ∨ e ∈ m := by
  induction m with
  | nil =>
    left
    simp [insertSorted] at he
    rw [he]
  | cons a t ih =>
    obtain ⟨k', v'⟩ := a
    unfold insertSorted at he
    split_ifs at he with h1
    · rcases List.mem_cons.1 he with h | h
      · left
        rw [h]
      · exact Or.inr h
    · rcases List.mem_cons.1 he with h | h
      · right
        rw [h]
        exact List.mem_cons_self _ _
      · rcases ih h with h2 | h2
        · exact Or.inl h2
        · exact Or.inr (List.mem_cons_of_mem _ h2)

theorem MapWF_insertSorted {V : Type} (k : Int) (v : V) (m : List (Int × V))
    (hwf : MapWF m) (hfresh : mapFind k m = none) : MapWF (insertSorted k v m) := by
  induction m with
  | nil => simp [insertSorted, MapWF]
  | cons a t ih =>
    obtain ⟨k', v'⟩ := a
    have hne : k' ≠ k := by
      intro h
      simp [mapFind, h] at hfresh
    have ht : mapFind k t = none := by
      simpa [mapFind, hne] using hfresh
    obtain ⟨hlt, hwt⟩ := (MapWF_cons k' v' t).1 hwf
    unfold insertSorted
    split_ifs with h1
    · refine (MapWF_cons k v _).2 ⟨?_, hwf⟩
      intro e he
      rcases List.mem_cons.1 he with h | h
      · rw [h]
        exact h1
      · exact lt_trans h1 (hlt e h)
    · refine (MapWF_cons k' v' _).2 ⟨?_, ih hwt ht⟩
      intro e he
      rcases keys_insertSorted k v t e he with h | h
      · rw [h]
        omega
      · exact hlt e h

theorem MapWF_mapInsert {V : Type} (k : Int) (v : V) (m : List (Int × V))
    (hwf : MapWF m) : MapWF (mapInsert k v m) := by
  unfold mapInsert
  split_ifs with h
  · exact hwf
  · apply MapWF_insertSorted k v m hwf
    cases hm : mapFind k m with
    | none => rfl
    | some a => simp [hm] at h

theorem keys_mapAssign {V : Type} (k : Int) (v : V) (m : List (Int × V)) (e : Int × V)
    (he : e ∈ mapAssign k v m) : e.1 = k ∨ e ∈ m := by
  induction m with
  | nil =>
    left
    simp [mapAssign] at he
    rw [he]
  | cons a t ih =>
    obtain ⟨k', v'⟩ := a
    unfold mapAssign at he
    split_ifs at he with h1 h2
    · rcases List.mem_cons.1 he with h | h
      · left
        rw [h]
      · exact Or.inr h
    · rcases List.mem_cons.1 he with h | h
      · left
        rw [h]
      · exact Or.inr (List.mem_cons_of_mem _ h)
    · rcases List.mem_cons.1 he with h | h
      · right
        rw [h]
        exact List.mem_cons_self _ _
      · rcases ih h with h3 | h3
        · exact Or.inl h3
        · exact Or.inr (List.mem_cons_of_mem _ h3)

theorem MapWF_mapAssign {V : Type} (k : Int) (v : V) (m : List (Int × V))
    (hwf : MapWF m) : MapWF (mapAssign k v m) := by
  induction m with
  | nil => simp [mapAssign, MapWF]
  | cons a t ih =>
    obtain ⟨k', v'⟩ := a
    obtain ⟨hlt, hwt⟩ := (MapWF_cons k' v' t).1 hwf
    unfold mapAssign
    split_ifs with h1 h2
    · refine (MapWF_cons k v _).2 ⟨?_, hwf⟩
      intro e he
      rcases List.mem_cons.1 he with h | h
      · rw [h]
        exact h1
      · exact lt_trans h1 (hlt e h)
    · subst h2
      exact (MapWF_cons k v t).2 ⟨hlt, hwt⟩
    · refine (MapWF_cons k' v' _).2 ⟨?_, ih hwt⟩
      intro e he
      rcases keys_mapAssign k v t e he with h | h
      · rw [h]
        omega
      · exact hlt e h

theorem MapWF_mapErase {V : Type} (k : Int) (m : List (Int × V))
    (hwf : MapWF m) : MapWF (mapErase k m) := by
  unfold MapWF mapErase at *
  exact List.Pairwise.sublist ((List.filter_sublist m).map Prod.fst) hwf

/-- In every reachable state both tables have strictly increasing keys: the lists that stand
for the two `std::map`s are maps. -/
theorem reachable_mapWF (DEBUG : Nat) (s : State) (h : Reachable DEBUG s) :
    MapWF s.plist ∧ MapWF s.exitHandlers := by
  refine reachable_preserves (fun s => MapWF s.plist ∧ MapWF s.exitHandlers)
    ⟨MapWF_nil, MapWF_nil⟩ ?_ ?_ ?_ ?_ DEBUG s h
  · intro s hs
    rw [installHandler_plist, installHandler_exitHandlers]
    exact hs
  · intro s f name hs _
    exact ⟨MapWF_mapInsert f name s.plist hs.1, hs.2⟩
  · intro s pid tn hs
    unfold SetTerminationNotifier
    split_ifs
    · exact ⟨hs.1, MapWF_mapAssign pid tn s.exitHandlers hs.2⟩
    · exact hs
  · intro s D p code hs
    rw [reapFinish_state]
    exact ⟨MapWF_mapErase p s.plist hs.1, MapWF_mapErase p s.exitHandlers hs.2⟩

/-- C10: in every state reachable from the empty registry and the empty notifier table by a
sequence of launches (parent side), `SetTerminationNotifier`, `Stop`, `StopAll` and handler
runs, every pid with an entry in the notifier table has a record in the registry, and every
pid in the registry is strictly positive. -/
theorem reachable_invariant (DEBUG : Nat) (s : State) (h : Reachable DEBUG s) :
    (∀ p tn, mapFind p s.exitHandlers = some tn → ∃ name, (p, name) ∈ s.plist) ∧
    (∀ p name, (p, name) ∈ s.plist → 0 < p) := by
  have hinv : Inv s :=
    reachable_preserves Inv Inv_init (fun s hs => Inv_installHandler hs)
      (fun s f name hs hf => Inv_register hs f name hf)
      (fun s pid tn hs => Inv_SetTerminationNotifier hs pid tn)
      (fun s D p code hs => Inv_reapFinish hs D p code) DEBUG s h
  refine ⟨?_, ?_⟩
  · intro p tn hp
    exact (mapFind_isSome_iff p s.plist).1 (hinv.1 p (by simp [hp]))
  · intro p name hmem
    exact hinv.2 (p, name) hmem

/-- C10, at a concrete state: the state after `Start("svc", "sleep 1")` with pid 7 and
`SetTerminationNotifier(7, 3)` is reachable. -/
theorem reachable_invariant_witness :
    Reachable 0 ⟨[(7, "svc")], [(7, 3)], true⟩ ∧
    (∀ p tn, mapFind p [(7, 3)] = some tn → ∃ name, (p, name) ∈ [((7 : Int), "svc")]) ∧
    (∀ p name, (p, name) ∈ [((7 : Int), "svc")] → 0 < p) :=
  ⟨Reachable.step _ (Op.setNotifier 7 3)
      (Reachable.step _ (Op.start "svc" "sleep 1" 7) Reachable.init (Or.inr (by decide)))
      trivial,
   reachable_invariant 0 ⟨[(7, "svc")], [(7, 3)], true⟩
    (Reachable.step _ (Op.setNotifier 7 3)
      (Reachable.step _ (Op.start "svc" "sleep 1" 7) Reachable.init (Or.inr (by decide)))
      trivial)⟩

end Util.Procs
